import Mathlib

/-!
Shallow embedding of the heave generator (src/main.rs): the OpenAPI document
model consumed by `generate`, the reference resolvers, the cycle guard, the
assertion synthesizer (`generate_assert_from_schema`), the request-body
synthesizer (`generate_request_body_from_schema`) and the operation
orchestrator (`generate`).  Rust strings are modelled as Lean `String`
(with hand-rolled, kernel-computable helpers mirroring the exact `str`
methods the source uses), `IndexMap`s as association lists in insertion
order, and the unbounded recursion of the two synthesizers as fuel-indexed
total functions where `none` marks fuel exhaustion (or a `serde_json`
`unwrap` panic), a case that never arises on the inputs the source
terminates on.
-/

/-- Kernel-computable model of Rust `str::starts_with` on a pattern string. -/
def strStartsWith (s pat : String) : Bool :=
  pat.data.isPrefixOf s.data

/-- Model of Rust `char::to_ascii_uppercase`-style uppercasing used for HTTP
method names (which are ASCII in the document model). -/
def asciiUpper (c : Char) : Char :=
  if 'a' ≤ c ∧ c ≤ 'z' then Char.ofNat (c.toNat - 32) else c

/-- Model of Rust `str::to_uppercase` restricted to ASCII method names. -/
def strUpper (s : String) : String :=
  String.mk (s.data.map asciiUpper)

/-- Replace every non-overlapping occurrence of `pat` (scanned left to
right) by `rep`, as Rust `str::replace` does for a non-empty pattern.  The
extra `Nat` argument only makes the recursion structural: each step
consumes at least one character, so running it with the input's length as
fuel computes the full replacement. -/
def replaceAux (pat rep : List Char) : Nat → List Char → List Char
  | 0, s => s
  | fuel + 1, s =>
    match s with
    | [] => []
    | c :: t =>
      if pat ≠ [] ∧ pat.isPrefixOf (c :: t) then
        rep ++ replaceAux pat rep fuel ((c :: t).drop pat.length)
      else
        c :: replaceAux pat rep fuel t

/-- Model of Rust `str::replace`. -/
def strReplace (s pat rep : String) : String :=
  String.mk (replaceAux pat.data rep.data s.data.length s.data)

/-- Join a list of strings with a separator, as Rust `[String]::join`. -/
def joinWith (sep : String) : List String → String
  | [] => ""
  | [s] => s
  | s :: rest => s ++ sep ++ joinWith sep rest

/-- Remainder of `s` after the first (leftmost) occurrence of `sep`;
`none` when `sep` never occurs.  Mirrors where Rust `str::split(sep)`
stands after producing its first piece. -/
def subAfterFirst (sep : List Char) : List Char → Option (List Char)
  | [] => if sep.isPrefixOf ([] : List Char) then some [] else none
  | c :: t =>
    if sep.isPrefixOf (c :: t) then some ((c :: t).drop sep.length)
    else subAfterFirst sep t

/-- Longest prefix of `s` that stops at the next occurrence of `sep` (the
whole of `s` if `sep` does not occur again). -/
def subUpToFirst (sep : List Char) : List Char → List Char
  | [] => []
  | c :: t => if sep.isPrefixOf (c :: t) then [] else c :: subUpToFirst sep t

/-- Model of the Rust idiom `reference.split(pfx).nth(1)` used by every
resolver in src/main.rs: the piece of `r` between the first occurrence of
`pfx` and the following occurrence (or the end).  `none` exactly when
`pfx` does not occur in `r` at all. -/
def refName (pfx r : String) : Option String :=
  (subAfterFirst pfx.data r.data).map fun rest => String.mk (subUpToFirst pfx.data rest)

/-- Model of Rust `jsonpath.split('.')` (src/main.rs cycle detection). -/
def splitOnDot : List Char → List (List Char)
  | [] => [[]]
  | c :: t =>
    if c = '.' then [] :: splitOnDot t
    else
      match splitOnDot t with
      | [] => [[c]]
      | h :: r => (c :: h) :: r

/-- The cycle scan of src/main.rs (lines 702-732 and 990-1020), applied to
the dot-separated path segments in reverse order: walking from the deep end
of the path towards the root, stop at the `$` segment; declare a cycle when
a segment equals the next segment towards the root or the one after that. -/
def cycleParts : List (List Char) → Bool
  | [] => false
  | p :: rest =>
    if p = ['$'] then false
    else if rest.head? = some p then true
    else if rest.tail.head? = some p then true
    else cycleParts rest

/-- The Cycle Guard consulted by both synthesizers. -/
def detectCycle (jsonpath : String) : Bool :=
  cycleParts (splitOnDot jsonpath.data).reverse

/-- Model of `itertools::unique` (src/main.rs line 664): walk the list
keeping a set of already-seen elements and drop every element already in
it, so the first occurrence of each element survives in order. -/
def uniqueFirstAux {α : Type} [DecidableEq α] (seen : List α) : List α → List α
  | [] => []
  | a :: t =>
    if a ∈ seen then uniqueFirstAux seen t
    else a :: uniqueFirstAux (a :: seen) t

/-- `itertools::unique` starting from an empty seen-set. -/
def uniqueFirst {α : Type} [DecidableEq α] (l : List α) : List α :=
  uniqueFirstAux [] l

/-- Filter-style reformulation of `uniqueFirst` (every later copy of the
head is dropped before recursing), convenient for proofs. -/
def uniqueFirstFilter {α : Type} [DecidableEq α] : List α → List α
  | [] => []
  | a :: t => a :: uniqueFirstFilter (t.filter fun b => decide (b ≠ a))
termination_by l => l.length
decreasing_by
  simp only [List.length_cons]
  exact Nat.lt_succ_of_le (List.length_filter_le _ _)

/-! ## The document model (the openapiv3 types the source consumes) -/

/-- openapiv3 `ReferenceOr<T>`: an inline value or a `$ref` string. -/
inductive ReferenceOr (α : Type) where
  | item (x : α)
  | ref (r : String)

/-- openapiv3 `ReferenceOr::as_item`. -/
def ReferenceOr.asItem {α : Type} : ReferenceOr α → Option α
  | .item x => some x
  | .ref _ => none

mutual
/-- openapiv3 `Schema`: visibility flags from `SchemaData` plus the kind. -/
inductive Schema where
  | mk (readOnly : Bool) (writeOnly : Bool) (kind : SchemaKind)

/-- openapiv3 `SchemaKind`, keeping exactly the structure
`generate_assert_from_schema` and `generate_request_body_from_schema`
dispatch on.  Object properties are an insertion-ordered association list
(the `IndexMap` iteration order of openapiv3). -/
inductive SchemaKind where
  | oneOf
  | anyOf
  | notKind
  | anyKind
  | allOf (members : List (ReferenceOr Schema))
  | typeBoolean
  | typeString
  | typeNumber
  | typeInteger
  | typeArray (items : Option (ReferenceOr Schema))
  | typeObject (properties : List (String × ReferenceOr Schema)) (required : List String)
end

/-- `schema.schema_data.read_only`. -/
def Schema.readOnly : Schema → Bool
  | .mk r _ _ => r

/-- `schema.schema_data.write_only`. -/
def Schema.writeOnly : Schema → Bool
  | .mk _ w _ => w

/-- `schema.schema_kind`. -/
def Schema.kind : Schema → SchemaKind
  | .mk _ _ k => k

/-- openapiv3 `Parameter`: the source only distinguishes `Query` and
`Header` (which contribute their `parameter_data.name`) from every other
kind (ignored). -/
inductive Param where
  | query (name : String)
  | header (name : String)
  | pathKind (name : String)
  | cookie (name : String)

/-- openapiv3 `MediaType`: only the `schema` field is consumed. -/
structure MediaType where
  schema : Option (ReferenceOr Schema)

/-- openapiv3 `RequestBody`: only the `content` map is consumed, as an
insertion-ordered association list keyed by media-type strings. -/
structure RequestBody where
  content : List (String × MediaType)

/-- openapiv3 `Response`: only the `content` map is consumed. -/
structure Response where
  content : List (String × MediaType)

/-- openapiv3 `StatusCode`. -/
inductive StatusCode where
  | code (n : Nat)
  | range (n : Nat)

/-- The slice of openapiv3 `Operation` that `generate` reads. -/
structure Operation where
  operationId : Option String
  parameters : List (ReferenceOr Param)
  requestBody : Option (ReferenceOr RequestBody)
  responses : List (StatusCode × ReferenceOr Response)

/-- openapiv3 `Components`: the four lookup tables the resolvers consult. -/
structure Components where
  schemas : List (String × ReferenceOr Schema)
  parameters : List (String × ReferenceOr Param)
  requestBodies : List (String × ReferenceOr RequestBody)
  responses : List (String × ReferenceOr Response)

/-- The document as consumed by `generate`: the flattened
`openapi.operations()` iterator (path, method, operation) plus the
optional `components` section. -/
structure OpenAPIDoc where
  operations : List (String × String × Operation)
  components : Option Components

/-- `DiagnosticContext` of src/main.rs. -/
structure DiagnosticContext where
  operation : String
  path : String
deriving DecidableEq

/-- The `HeaveError` diagnostics that `generate` can emit (the `JinjaError`
variant belongs to template loading, outside the generation core). -/
inductive Diag where
  | malformedParameterReference (operation : String) (path : String) (reference : String)
  | missingComponents
  | missingParameterReference (context : DiagnosticContext) (reference : String)
  | malformedRequestBodyReference (context : DiagnosticContext) (reference : String)
  | missingRequestBodyReference (context : DiagnosticContext) (reference : String)
  | failedRequestBodyDereference (context : DiagnosticContext) (reference : String)
  | missingApplicationJsonRequestBodyMediaType (context : DiagnosticContext)
  | missingApplicationJsonResponseBodyMediaType (context : DiagnosticContext)
  | missingSchemaDefinitionForMediaType (context : DiagnosticContext)
  | malformedSchemaReference (context : DiagnosticContext) (reference : String)
  | missingSchemaReference (context : DiagnosticContext) (reference : String)
  | failedSchemaDereference (context : DiagnosticContext) (reference : String)
  | unsupportedSchemaKind (context : DiagnosticContext) (kind : String) (jsonpath : String)
  | unsupportedStatusCodeRange (context : DiagnosticContext)
  | malformedResponseBodyReference (context : DiagnosticContext) (reference : String)
  | missingResponseBodyReference (context : DiagnosticContext) (reference : String)
  | failedResponseBodyDereference (context : DiagnosticContext) (reference : String)
  | requestBodySchemaCycleDetected (context : DiagnosticContext) (jsonpath : String)
  | responseBodySchemaCycleDetected (context : DiagnosticContext) (jsonpath : String)
deriving DecidableEq

/-- The `Output` record handed to the template renderer. -/
structure Output where
  expectedStatusCode : Nat
  name : String
  path : String
  method : String
  headerParameters : List String
  queryParameters : List String
  asserts : List String
  requestBodyParameter : String
deriving DecidableEq

/-- `GenerateResult` of src/main.rs. -/
structure GenerateResult where
  outputs : List Output
  diagnostics : List Diag
deriving DecidableEq

/-! ## A minimal serde_json model

The request-body synthesizer re-parses the fragments it just produced
(`serde_json::from_str::<Value>`) and re-serializes them
(`Value::to_string`, `to_string_pretty`).  The model below covers the
grammar those fragments use: `false`/`true`/`null`, integer literals,
escape-free strings, arrays and objects.  Object entries are kept in
insertion order; which entry order the real `serde_json::Map` serializes
depends on a cargo feature outside src/, so every claim about merged
objects is stated through key membership and lookups, which agree under
either order. -/

inductive Json where
  | jnull
  | jbool (b : Bool)
  | jnum (n : Int)
  | jstr (s : String)
  | jarr (elems : List Json)
  | jobj (fields : List (String × Json))

/-- `Value::is_object`. -/
def Json.isObject : Json → Bool
  | .jobj _ => true
  | _ => false

mutual
/-- `serde_json::Value::to_string` (compact form). -/
def jsonToString : Json → String
  | .jnull => "null"
  | .jbool b => if b then "true" else "false"
  | .jnum n => n.repr
  | .jstr s => "\"" ++ s ++ "\""
  | .jarr elems => "[" ++ joinWith "," (jsonElemsToString elems) ++ "]"
  | .jobj fields => "\x7b" ++ joinWith "," (jsonFieldsToString fields) ++ "\x7d"

def jsonElemsToString : List Json → List String
  | [] => []
  | j :: rest => jsonToString j :: jsonElemsToString rest

def jsonFieldsToString : List (String × Json) → List String
  | [] => []
  | (k, v) :: rest => ("\"" ++ k ++ "\":" ++ jsonToString v) :: jsonFieldsToString rest
end

mutual
/-- `serde_json::to_string_pretty` body at a given indentation depth. -/
def jsonPrettyAt (indent : String) : Json → String
  | .jnull => "null"
  | .jbool b => if b then "true" else "false"
  | .jnum n => n.repr
  | .jstr s => "\"" ++ s ++ "\""
  | .jarr [] => "[]"
  | .jarr elems =>
    "[\n" ++ joinWith ",\n" (jsonPrettyElems (indent ++ "  ") elems) ++ "\n" ++ indent ++ "]"
  | .jobj [] => "\x7b\x7d"
  | .jobj fields =>
    "\x7b\n" ++ joinWith ",\n" (jsonPrettyFields (indent ++ "  ") fields) ++ "\n" ++ indent ++ "\x7d"

def jsonPrettyElems (indent : String) : List Json → List String
  | [] => []
  | j :: rest => (indent ++ jsonPrettyAt indent j) :: jsonPrettyElems indent rest

def jsonPrettyFields (indent : String) : List (String × Json) → List String
  | [] => []
  | (k, v) :: rest =>
    (indent ++ "\"" ++ k ++ "\": " ++ jsonPrettyAt indent v) :: jsonPrettyFields indent rest
end

/-- `serde_json::to_string_pretty`. -/
def jsonPretty (j : Json) : String :=
  jsonPrettyAt "" j

/-- JSON whitespace. -/
def wsChar (c : Char) : Bool :=
  c = ' ' || c = '\n' || c = '\t' || c = '\r'

def skipWs : List Char → List Char
  | [] => []
  | c :: t => if wsChar c then skipWs t else c :: t

/-- Parse the body of a string literal after the opening quote; escapes are
outside the grammar the synthesizer emits and make the parse fail. -/
def parseStringBody : List Char → Option (String × List Char)
  | [] => none
  | c :: t =>
    if c = '"' then some ("", t)
    else if c = '\\' then none
    else
      match parseStringBody t with
      | none => none
      | some (s, r) => some (String.mk (c :: s.data), r)

/-- Parse a run of decimal digits. -/
def parseDigitsAux (acc : Nat) : List Char → Nat × List Char
  | [] => (acc, [])
  | c :: t =>
    if c.isDigit then parseDigitsAux (acc * 10 + (c.toNat - 48)) t
    else (acc, c :: t)

mutual
/-- Recursive-descent JSON value parser (fuel-indexed). -/
def parseVal : Nat → List Char → Option (Json × List Char)
  | 0, _ => none
  | fuel + 1, s =>
    match skipWs s with
    | [] => none
    | c :: t =>
      if c = '"' then
        (parseStringBody t).map fun p => (Json.jstr p.1, p.2)
      else if c = '\x7b' then
        match skipWs t with
        | '\x7d' :: r => some (Json.jobj [], r)
        | t2 => (parseFields fuel t2).map fun p => (Json.jobj p.1, p.2)
      else if c = '[' then
        match skipWs t with
        | ']' :: r => some (Json.jarr [], r)
        | t2 => (parseElems fuel t2).map fun p => (Json.jarr p.1, p.2)
      else if c = 't' then
        match t with
        | 'r' :: 'u' :: 'e' :: r => some (Json.jbool true, r)
        | _ => none
      else if c = 'f' then
        match t with
        | 'a' :: 'l' :: 's' :: 'e' :: r => some (Json.jbool false, r)
        | _ => none
      else if c = 'n' then
        match t with
        | 'u' :: 'l' :: 'l' :: r => some (Json.jnull, r)
        | _ => none
      else if c = '-' then
        match t with
        | d :: t2 =>
          if d.isDigit then
            let p := parseDigitsAux (d.toNat - 48) t2
            some (Json.jnum (-(p.1 : Int)), p.2)
          else none
        | [] => none
      else if c.isDigit then
        let p := parseDigitsAux (c.toNat - 48) t
        some (Json.jnum (p.1 : Int), p.2)
      else none

/-- Parse the fields of a non-empty object, starting at the first key. -/
def parseFields : Nat → List Char → Option (List (String × Json) × List Char)
  | 0, _ => none
  | fuel + 1, s =>
    match s with
    | '"' :: t =>
      match parseStringBody t with
      | none => none
      | some (key, r) =>
        match skipWs r with
        | ':' :: r2 =>
          match parseVal fuel r2 with
          | none => none
          | some (v, r3) =>
            match skipWs r3 with
            | ',' :: r4 =>
              match parseFields fuel (skipWs r4) with
              | none => none
              | some (fs, r5) => some ((key, v) :: fs, r5)
            | '\x7d' :: r4 => some ([(key, v)], r4)
            | _ => none
        | _ => none
    | _ => none

/-- Parse the elements of a non-empty array, starting at the first value. -/
def parseElems : Nat → List Char → Option (List Json × List Char)
  | 0, _ => none
  | fuel + 1, s =>
    match parseVal fuel s with
    | none => none
    | some (v, r) =>
      match skipWs r with
      | ',' :: r2 =>
        match parseElems fuel r2 with
        | none => none
        | some (vs, r3) => some (v :: vs, r3)
      | ']' :: r2 => some ([v], r2)
      | _ => none
end

/-- `serde_json::from_str::<Value>`: parse a full document, allowing only
trailing whitespace. -/
def parseJson (s : String) : Option Json :=
  match parseVal (s.data.length + 1) s.data with
  | some (j, r) => if skipWs r = [] then some j else none
  | none => none

/-- `serde_json::Map::append` with the incoming map's value winning on a
shared key, as both possible underlying map types do. -/
def mapAppend (a b : List (String × Json)) : List (String × Json) :=
  a.filter (fun p => (List.lookup p.1 b).isNone) ++ b

/-! ## Reference resolvers (src/main.rs `resolve_schema`, `resolve_request_body`, `resolve_response`) -/

/-- `resolve_schema` (src/main.rs lines 881-926). -/
def resolveSchema (doc : OpenAPIDoc) (schema : ReferenceOr Schema)
    (ctx : DiagnosticContext) : Option Schema × List Diag :=
  match schema with
  | .item i => (some i, [])
  | .ref r =>
    match refName "#/components/schemas/" r with
    | none => (none, [.malformedSchemaReference ctx r])
    | some name =>
      match doc.components with
      | none => (none, [.missingComponents])
      | some comps =>
        match List.lookup name comps.schemas with
        | none => (none, [.missingSchemaReference ctx r])
        | some found =>
          match found.asItem with
          | none => (none, [.failedSchemaDereference ctx r])
          | some s => (some s, [])

/-- `resolve_request_body` (src/main.rs lines 928-977). -/
def resolveRequestBody (doc : OpenAPIDoc) (rb : ReferenceOr RequestBody)
    (ctx : DiagnosticContext) : Option RequestBody × List Diag :=
  match rb with
  | .item i => (some i, [])
  | .ref r =>
    match refName "#/components/requestBodies/" r with
    | none => (none, [.malformedRequestBodyReference ctx r])
    | some name =>
      match doc.components with
      | none => (none, [.missingComponents])
      | some comps =>
        match List.lookup name comps.requestBodies with
        | none => (none, [.missingRequestBodyReference ctx r])
        | some found =>
          match found.asItem with
          | none => (none, [.failedRequestBodyDereference ctx r])
          | some b => (some b, [])

/-- `resolve_response` (src/main.rs lines 1202-1247). -/
def resolveResponse (doc : OpenAPIDoc) (resp : ReferenceOr Response)
    (ctx : DiagnosticContext) : Option Response × List Diag :=
  match resp with
  | .item i => (some i, [])
  | .ref r =>
    match refName "#/components/responses/" r with
    | none => (none, [.malformedResponseBodyReference ctx r])
    | some name =>
      match doc.components with
      | none => (none, [.missingComponents])
      | some comps =>
        match List.lookup name comps.responses with
        | none => (none, [.missingResponseBodyReference ctx r])
        | some found =>
          match found.asItem with
          | none => (none, [.failedResponseBodyDereference ctx r])
          | some s => (some s, [])

/-! ## The assertion synthesizer (`generate_assert_from_schema`, src/main.rs lines 690-879) -/

/-- The `is_required_formatter` closure (src/main.rs lines 736-743): a
`jsonpath` assertion line, commented out with `#` when not required. -/
def isRequiredFormatter (jsonpath default : String) (isRequired : Bool) : String :=
  (if isRequired then "" else "#") ++ "jsonpath \"" ++ jsonpath ++ "\" " ++ default

/-- The property loop of the `Type::Object` arm (src/main.rs lines 844-873):
resolve each declared property; a failed resolution keeps its diagnostics
and `break`s out of the loop; otherwise recurse (through `child`) with the
extended path and the parent-AND-required child requiredness. -/
def assertPropsLoop (doc : OpenAPIDoc) (ctx : DiagnosticContext)
    (child : Schema → String → Bool → Option (List String × List Diag))
    (required : List String) (jsonpath : String) (isRequired : Bool) :
    List (String × ReferenceOr Schema) → Option (List String × List Diag)
  | [] => some ([], [])
  | (name, p) :: rest =>
    match resolveSchema doc p ctx with
    | (none, ds) => some ([], ds)
    | (some inner, ds) =>
      match child inner
          (if name.data.any (fun c => c = '@' || c = '$') then
            jsonpath ++ "['" ++ name ++ "']"
          else
            jsonpath ++ "." ++ name)
          (isRequired && required.contains name) with
      | none => none
      | some (childAsserts, childDs) =>
        match assertPropsLoop doc ctx child required jsonpath isRequired rest with
        | none => none
        | some (restAsserts, restDs) =>
          some (childAsserts ++ restAsserts, ds ++ childDs ++ restDs)

/-- The member loop of the `AllOf` arm (src/main.rs lines 752-770): resolve
every member and recurse at the same path; a failed resolution keeps its
diagnostics and moves on to the next member. -/
def assertAllLoop (doc : OpenAPIDoc) (ctx : DiagnosticContext)
    (child : Schema → Option (List String × List Diag)) :
    List (ReferenceOr Schema) → Option (List String × List Diag)
  | [] => some ([], [])
  | m :: rest =>
    match resolveSchema doc m ctx with
    | (none, ds) =>
      match assertAllLoop doc ctx child rest with
      | none => none
      | some (restAsserts, restDs) => some (restAsserts, ds ++ restDs)
    | (some s, ds) =>
      match child s with
      | none => none
      | some (childAsserts, childDs) =>
        match assertAllLoop doc ctx child rest with
        | none => none
        | some (restAsserts, restDs) =>
          some (childAsserts ++ restAsserts, ds ++ childDs ++ restDs)

/-- `generate_assert_from_schema` (src/main.rs lines 690-879), fuel-indexed:
`none` is fuel exhaustion, standing for the recursion the source would not
return from. -/
def genAssert : Nat → OpenAPIDoc → Schema → String → Bool → DiagnosticContext →
    Option (List String × List Diag)
  | 0, _, _, _, _, _ => none
  | fuel + 1, doc, schema, jsonpath, isRequired, ctx =>
    if schema.writeOnly then some ([], [])
    else if detectCycle jsonpath then
      some ([], [.responseBodySchemaCycleDetected ctx jsonpath])
    else
      match schema.kind with
      | .oneOf => some ([], [.unsupportedSchemaKind ctx "OneOf" jsonpath])
      | .anyOf => some ([], [.unsupportedSchemaKind ctx "AnyOf" jsonpath])
      | .notKind => some ([], [.unsupportedSchemaKind ctx "Not" jsonpath])
      | .anyKind => some ([], [.unsupportedSchemaKind ctx "Any" jsonpath])
      | .allOf members =>
        assertAllLoop doc ctx (fun s => genAssert fuel doc s jsonpath isRequired ctx) members
      | .typeBoolean => some ([isRequiredFormatter jsonpath "isBoolean" isRequired], [])
      | .typeString => some ([isRequiredFormatter jsonpath "isString" isRequired], [])
      | .typeNumber => some ([isRequiredFormatter jsonpath "isNumber" isRequired], [])
      | .typeInteger => some ([isRequiredFormatter jsonpath "isInteger" isRequired], [])
      | .typeArray items =>
        match items with
        | none => some ([isRequiredFormatter jsonpath "isCollection" isRequired], [])
        | some itemRef =>
          match resolveSchema doc itemRef ctx with
          | (none, ds) => some ([isRequiredFormatter jsonpath "isCollection" isRequired], ds)
          | (some inner, ds) =>
            match genAssert fuel doc inner (jsonpath ++ "[0]") false ctx with
            | none => none
            | some (childAsserts, childDs) =>
              some (isRequiredFormatter jsonpath "isCollection" isRequired :: childAsserts,
                ds ++ childDs)
      | .typeObject properties required =>
        match assertPropsLoop doc ctx
            (fun s p r => genAssert fuel doc s p r ctx) required jsonpath isRequired properties with
        | none => none
        | some (asserts, ds) =>
          some (isRequiredFormatter jsonpath "isCollection" isRequired :: asserts, ds)

/-! ## The request-body synthesizer (`generate_request_body_from_schema`, src/main.rs lines 979-1200) -/

/-- The `single_property_formatter` closure (src/main.rs lines 1109-1114). -/
def singlePropertyFormatter (name : Option String) (default : String) : String :=
  match name with
  | some n => "\"" ++ n ++ "\": " ++ default
  | none => default

/-- The property loop of the `Type::Object` arm (src/main.rs lines
1128-1147): a failed property resolution keeps its diagnostics and aborts
the whole object (`return (None, diagnostics)`), otherwise every property
recurses (through `child`) and its optional fragment is collected. -/
def bodyPropsLoop (doc : OpenAPIDoc) (ctx : DiagnosticContext)
    (child : Schema → Option String → String → Option (Option String × List Diag))
    (jsonpath : String) :
    List (String × ReferenceOr Schema) → Option (Option (List (Option String)) × List Diag)
  | [] => some (some [], [])
  | (name, p) :: rest =>
    match resolveSchema doc p ctx with
    | (none, ds) => some (none, ds)
    | (some inner, ds) =>
      match child inner (some name) (jsonpath ++ "." ++ name) with
      | none => none
      | some (frag, childDs) =>
        match bodyPropsLoop doc ctx child jsonpath rest with
        | none => none
        | some (none, restDs) => some (none, ds ++ childDs ++ restDs)
        | some (some frags, restDs) => some (some (frag :: frags), ds ++ childDs ++ restDs)

/-- The member loop of the `AllOf` arm (src/main.rs lines 1031-1062):
recurse into every resolving member at the same path with no name; each
produced fragment is re-parsed as JSON; object-shaped results are flattened
into one accumulated field map (`serde_json::Map::append`, later members
overwriting), other results are collected in order.  A fragment the
re-parse rejects models the source's `unwrap` panic and yields `none`. -/
def bodyAllLoop (doc : OpenAPIDoc) (ctx : DiagnosticContext)
    (child : Schema → Option (Option String × List Diag)) :
    List (ReferenceOr Schema) → Option (List String × List (String × Json) × List Diag)
  | [] => some ([], [], [])
  | m :: rest =>
    match resolveSchema doc m ctx with
    | (none, ds) =>
      (bodyAllLoop doc ctx child rest).map fun r => (r.1, r.2.1, ds ++ r.2.2)
    | (some s, ds) =>
      match child s with
      | none => none
      | some (none, childDs) =>
        (bodyAllLoop doc ctx child rest).map fun r => (r.1, r.2.1, ds ++ childDs ++ r.2.2)
      | some (some body, childDs) =>
        match parseJson body with
        | none => none
        | some (.jobj fields) =>
          (bodyAllLoop doc ctx child rest).map fun r =>
            (r.1, mapAppend fields r.2.1, ds ++ childDs ++ r.2.2)
        | some _ =>
          (bodyAllLoop doc ctx child rest).map fun r =>
            (body :: r.1, r.2.1, ds ++ childDs ++ r.2.2)

/-- Tail of the `AllOf` arm (src/main.rs lines 1063-1086): append the
flattened object (already serialized by the caller when non-empty), return
no fragment when nothing was built, otherwise join with `,\n` and prepend
the name when one was supplied. -/
def allOfAssemble (name : Option String) (bodies : List String) (ds : List Diag) :
    Option (Option String × List Diag) :=
  if bodies.isEmpty then some (none, ds)
  else
    match name with
    | some n => some (some ("\"" ++ n ++ "\": " ++ joinWith ",\n" bodies), ds)
    | none => some (some (joinWith ",\n" bodies), ds)

/-- `generate_request_body_from_schema` (src/main.rs lines 979-1200),
fuel-indexed; the outer `none` is fuel exhaustion or an `unwrap` panic,
the inner `Option String` is the synthesized fragment. -/
def genBody : Nat → OpenAPIDoc → Schema → Option String → DiagnosticContext → String →
    Option (Option String × List Diag)
  | 0, _, _, _, _, _ => none
  | fuel + 1, doc, schema, name, ctx, jsonpath =>
    if schema.readOnly then some (none, [])
    else if detectCycle jsonpath then
      some (none, [.requestBodySchemaCycleDetected ctx jsonpath])
    else
      match schema.kind with
      | .oneOf => some (none, [.unsupportedSchemaKind ctx "OneOf" (name.getD "")])
      | .anyOf => some (none, [.unsupportedSchemaKind ctx "AnyOf" (name.getD "")])
      | .notKind => some (none, [.unsupportedSchemaKind ctx "Not" (name.getD "")])
      | .anyKind => some (none, [.unsupportedSchemaKind ctx "Any" (name.getD "")])
      | .allOf members =>
        match bodyAllLoop doc ctx (fun s => genBody fuel doc s none ctx jsonpath) members with
        | none => none
        | some (bodies, flattened, ds) =>
          allOfAssemble name
            (if 0 < flattened.length then bodies ++ [jsonToString (Json.jobj flattened)]
             else bodies) ds
      | .typeBoolean => some (some (singlePropertyFormatter name "false"), [])
      | .typeString => some (some (singlePropertyFormatter name "\"\""), [])
      | .typeNumber => some (some (singlePropertyFormatter name "0"), [])
      | .typeInteger => some (some (singlePropertyFormatter name "0"), [])
      | .typeObject properties _required =>
        match bodyPropsLoop doc ctx
            (fun s n p => genBody fuel doc s n ctx p) jsonpath properties with
        | none => none
        | some (none, ds) => some (none, ds)
        | some (some frags, ds) =>
          match name with
          | some n =>
            some (some ("\"" ++ n ++ "\": \x7b" ++ joinWith ",\n" (frags.filterMap id) ++ "\x7d"),
              ds)
          | none =>
            some (some ("\x7b\n" ++ joinWith ",\n" (frags.filterMap id) ++ "\n\x7d"), ds)
      | .typeArray items =>
        match items with
        | none => some (none, [])
        | some itemRef =>
          match resolveSchema doc itemRef ctx with
          | (none, ds) => some (none, ds)
          | (some inner, ds) =>
            match genBody fuel doc inner none ctx (jsonpath ++ "[]") with
            | none => none
            | some (none, childDs) => some (none, ds ++ childDs)
            | some (some childBody, childDs) =>
              match name with
              | some n => some (some ("\"" ++ n ++ "\": [" ++ childBody ++ "]"), ds ++ childDs)
              | none => some (some ("[" ++ childBody ++ "]"), ds ++ childDs)

/-! ## The operation orchestrator (`generate`, src/main.rs lines 490-688) -/

/-- Pick the media type of the first content key starting with
`application/json` (src/main.rs lines 569-574 and 629-634). -/
def findJsonMediaType (content : List (String × MediaType)) : Option MediaType :=
  (content.find? fun p => strStartsWith p.1 "application/json").map fun p => p.2

/-- Processing of one operation parameter (src/main.rs lines 505-558),
yielding the query names, header names and diagnostics it contributes. -/
def paramStep (doc : OpenAPIDoc) (ctx : DiagnosticContext) (p : ReferenceOr Param) :
    List String × List String × List Diag :=
  match p with
  | .ref r =>
    match refName "#/components/parameters/" r with
    | none => ([], [], [.malformedParameterReference ctx.operation ctx.path r])
    | some parameterName =>
      match doc.components with
      | none => ([], [], [.missingComponents])
      | some comps =>
        match List.lookup parameterName comps.parameters with
        | none => ([], [], [.missingParameterReference ctx r])
        | some found =>
          match found.asItem with
          | none => ([], [], [])
          | some param =>
            match param with
            | .query n => ([n], [], [])
            | .header n => ([], [n], [])
            | _ => ([], [], [])
  | .item param =>
    match param with
    | .query n => ([n], [], [])
    | .header n => ([], [n], [])
    | _ => ([], [], [])

/-- The parameter loop of `generate`. -/
def processParams (doc : OpenAPIDoc) (ctx : DiagnosticContext) :
    List (ReferenceOr Param) → List String × List String × List Diag
  | [] => ([], [], [])
  | p :: rest =>
    let (q, h, ds) := paramStep doc ctx p
    let (restQ, restH, restDs) := processParams doc ctx rest
    (q ++ restQ, h ++ restH, ds ++ restDs)

/-- The request-body block of `generate` (src/main.rs lines 560-609):
resolve the body, find its JSON media type and schema, synthesize the
fragment and pretty-print it through a parse/serialize round trip. -/
def processRequestBody (fuel : Nat) (doc : OpenAPIDoc) (ctx : DiagnosticContext) :
    Option (ReferenceOr RequestBody) → Option (Option String × List Diag)
  | none => some (none, [])
  | some rbRef =>
    match resolveRequestBody doc rbRef ctx with
    | (none, ds) => some (none, ds)
    | (some rb, ds) =>
      match findJsonMediaType rb.content with
      | none => some (none, ds ++ [.missingApplicationJsonRequestBodyMediaType ctx])
      | some mt =>
        match mt.schema with
        | none => some (none, ds ++ [.missingSchemaDefinitionForMediaType ctx])
        | some sRef =>
          match resolveSchema doc sRef ctx with
          | (none, sds) => some (none, ds ++ sds)
          | (some s, sds) =>
            match genBody fuel doc s none ctx "$" with
            | none => none
            | some (none, bds) => some (none, ds ++ sds ++ bds)
            | some (some body, bds) =>
              match parseJson body with
              | none => none
              | some j => some (some (jsonPretty j), ds ++ sds ++ bds)

/-- One entry of the response loop of `generate` (src/main.rs lines
611-681): a status-code range only contributes a diagnostic; a concrete
code resolves its response, media type and schema, runs the assertion
synthesizer rooted at `$` with `is_required = true`, de-duplicates the
asserts and assembles the `Output` record. -/
def processResponse (fuel : Nat) (doc : OpenAPIDoc) (ctx : DiagnosticContext)
    (opName path method : String) (headerParameters queryParameters : List String)
    (requestBodyParameter : Option String) (sc : StatusCode) (resp : ReferenceOr Response) :
    Option (List Output × List Diag) :=
  match sc with
  | .range _ => some ([], [.unsupportedStatusCodeRange ctx])
  | .code code =>
    let fileName := opName ++ "_" ++ Nat.repr code ++ ".hurl"
    match resolveResponse doc resp ctx with
    | (none, ds) => some ([], ds)
    | (some r, ds) =>
      match findJsonMediaType r.content with
      | none => some ([], ds ++ [.missingApplicationJsonResponseBodyMediaType ctx])
      | some mt =>
        match mt.schema with
        | none => some ([], ds ++ [.missingSchemaDefinitionForMediaType ctx])
        | some sRef =>
          match resolveSchema doc sRef ctx with
          | (none, sds) => some ([], ds ++ sds)
          | (some s, sds) =>
            match genAssert fuel doc s "$" true ctx with
            | none => none
            | some (asserts, ads) =>
              let output : Output :=
                ⟨code, fileName,
                  strReplace (strReplace path "\x7b" "\x7b\x7b") "\x7d" "\x7d\x7d",
                  strUpper method, headerParameters, queryParameters,
                  uniqueFirst asserts, requestBodyParameter.getD ""⟩
              some ([output], ds ++ sds ++ ads)

/-- The response loop of `generate`. -/
def processResponses (fuel : Nat) (doc : OpenAPIDoc) (ctx : DiagnosticContext)
    (opName path method : String) (headerParameters queryParameters : List String)
    (requestBodyParameter : Option String) :
    List (StatusCode × ReferenceOr Response) → Option (List Output × List Diag)
  | [] => some ([], [])
  | (sc, resp) :: rest =>
    match processResponse fuel doc ctx opName path method headerParameters queryParameters
        requestBodyParameter sc resp with
    | none => none
    | some (outs, ds) =>
      match processResponses fuel doc ctx opName path method headerParameters queryParameters
          requestBodyParameter rest with
      | none => none
      | some (restOuts, restDs) => some (outs ++ restOuts, ds ++ restDs)

/-- One iteration of the operation loop of `generate`. -/
def processOperation (fuel : Nat) (doc : OpenAPIDoc)
    (entry : String × String × Operation) : Option (List Output × List Diag) :=
  let path := entry.1
  let method := entry.2.1
  let op := entry.2.2
  let opName := op.operationId.getD (method ++ "_" ++ strReplace path "/" "_")
  let ctx : DiagnosticContext := ⟨opName, path⟩
  let (queryParameters, headerParameters, paramDs) := processParams doc ctx op.parameters
  match processRequestBody fuel doc ctx op.requestBody with
  | none => none
  | some (requestBodyParameter, rbDs) =>
    match processResponses fuel doc ctx opName path method headerParameters queryParameters
        requestBodyParameter op.responses with
    | none => none
    | some (outs, respDs) => some (outs, paramDs ++ rbDs ++ respDs)

/-- The operation loop of `generate`. -/
def generateGo (fuel : Nat) (doc : OpenAPIDoc) :
    List (String × String × Operation) → Option (List Output × List Diag)
  | [] => some ([], [])
  | entry :: rest =>
    match processOperation fuel doc entry with
    | none => none
    | some (outs, ds) =>
      match generateGo fuel doc rest with
      | none => none
      | some (restOuts, restDs) => some (outs ++ restOuts, ds ++ restDs)

/-- `generate` (src/main.rs lines 490-688), fuel-indexed through the two
synthesizers. -/
def generate (fuel : Nat) (doc : OpenAPIDoc) : Option GenerateResult :=
  (generateGo fuel doc doc.operations).map fun r => ⟨r.1, r.2⟩

/-! ## Concrete fixtures used by the claim theorems -/

/-- A diagnostic context as `generate` builds it for an operation named
`op` at path `/p`. -/
def ctx0 : DiagnosticContext := ⟨"op", "/p"⟩

/-- A document with no operations and no components section. -/
def emptyDoc : OpenAPIDoc := ⟨[], none⟩

def intSchema : Schema := .mk false false .typeInteger

def strSchema : Schema := .mk false false .typeString

def boolSchema : Schema := .mk false false .typeBoolean

def numSchema : Schema := .mk false false .typeNumber

/-- The C1 scenario schema:
`{type: object, required: [id], properties: {id: integer, name: string}}`. -/
def c1Schema : Schema :=
  .mk false false (.typeObject [("id", .item intSchema), ("name", .item strSchema)] ["id"])

/-- A components section whose schema table does not contain `Missing`. -/
def c2Doc : OpenAPIDoc := ⟨[], some ⟨[("Good", .item strSchema)], [], [], []⟩⟩

/-- An object whose first property reference fails to resolve while its
second property is a perfectly fine inline string. -/
def c2Schema : Schema :=
  .mk false false
    (.typeObject [("a", .ref "#/components/schemas/Missing"), ("b", .item strSchema)] [])

/-- One operation with a single malformed parameter reference. -/
def c3MalformedDoc : OpenAPIDoc :=
  ⟨[("/p", "get", ⟨some "op", [.ref "bad"], none, []⟩)], none⟩

/-- A 200 response with an inline string schema. -/
def c3Response : ReferenceOr Response :=
  .item ⟨[("application/json", ⟨some (.item strSchema)⟩)]⟩

/-- The output record the C3 operations produce when their parameter is
silently skipped. -/
def c3Output : Output :=
  ⟨200, "op_200.hurl", "/p", "GET", [], [], ["jsonpath \"$\" isString"], ""⟩

/-- One operation whose parameter reference resolves to a further
reference (`found_parameter.as_item()` is `None`). -/
def c3ChainDoc (r : String) : OpenAPIDoc :=
  ⟨[("/p", "get",
      ⟨some "op", [.ref "#/components/parameters/P"], none, [(.code 200, c3Response)]⟩)],
   some ⟨[], [("P", .ref r)], [], []⟩⟩

/-- One operation whose parameter resolves to an inline path parameter
(neither query nor header). -/
def c3PathDoc : OpenAPIDoc :=
  ⟨[("/p", "get",
      ⟨some "op", [.ref "#/components/parameters/P"], none, [(.code 200, c3Response)]⟩)],
   some ⟨[], [("P", .item (.pathKind "x"))], [], []⟩⟩

/-- One operation with a parameter reference to a missing component. -/
def c3MissingDoc : OpenAPIDoc :=
  ⟨[("/p", "get", ⟨some "op", [.ref "#/components/parameters/Q"], none, []⟩)],
   some ⟨[], [], [], []⟩⟩

/-- One operation with a well-formed parameter reference but no components
section at all. -/
def c3NoCompsDoc : OpenAPIDoc :=
  ⟨[("/p", "get", ⟨some "op", [.ref "#/components/parameters/Q"], none, []⟩)], none⟩

/-- A components section defining schema `Foo`. -/
def c4Doc : OpenAPIDoc := ⟨[], some ⟨[("Foo", .item strSchema)], [], [], []⟩⟩

/-- Self-referential object: property `s` refers back to the schema's own
component name `A`; sibling `t` is an inline string. -/
def c5DirectA : Schema :=
  .mk false false
    (.typeObject [("s", .ref "#/components/schemas/A"), ("t", .item strSchema)] [])

def c5DirectDoc : OpenAPIDoc := ⟨[], some ⟨[("A", .item c5DirectA)], [], [], []⟩⟩

/-- The four primitive schema kinds, used to quantify the C7 merge scenario
over every combination of member property types. -/
inductive PrimKind where
  | pBool
  | pStr
  | pInt
  | pNum
deriving DecidableEq, Fintype

def primSchema : PrimKind → Schema
  | .pBool => boolSchema
  | .pStr => strSchema
  | .pInt => intSchema
  | .pNum => numSchema

/-- The placeholder JSON value the request-body synthesizer emits for each
primitive kind. -/
def primJson : PrimKind → Json
  | .pBool => .jbool false
  | .pStr => .jstr ""
  | .pInt => .jnum 0
  | .pNum => .jnum 0

/-- One `allOf` member: an inline object with two primitive properties
under arbitrary names. -/
def c7Member (n1 n2 : String) (k1 k2 : PrimKind) : Schema :=
  .mk false false
    (.typeObject [(n1, .item (primSchema k1)), (n2, .item (primSchema k2))] [])

/-- `allOf` of two inline objects with disjoint property sets
`\x7bna, nb\x7d` and `\x7bnc, nd\x7d`. -/
def c7DisjointGen (na nb nc nd : String) (t1 t2 t3 t4 : PrimKind) : Schema :=
  .mk false false (.allOf [.item (c7Member na nb t1 t2), .item (c7Member nc nd t3 t4)])

/-- `allOf` of two inline objects with overlapping property sets
`\x7bna, ns\x7d` and `\x7bnb, ns\x7d` (`ns` shared). -/
def c7OverlapGen (na ns nb : String) (t1 t2 t3 t4 : PrimKind) : Schema :=
  .mk false false (.allOf [.item (c7Member na ns t1 t2), .item (c7Member nb ns t3 t4)])

/-- The field map the `allOf` flattening produces for `c7DisjointGen`: the
union of both members' keys, in the order the merge inserts them. -/
def c7MergedDisjointGen (na nb nc nd : String) (t1 t2 t3 t4 : PrimKind) :
    List (String × Json) :=
  [(na, primJson t1), (nb, primJson t2), (nc, primJson t3), (nd, primJson t4)]

/-- The field map the `allOf` flattening produces for `c7OverlapGen`: the
union of both members' keys, with the later member's value at the shared
key `ns`. -/
def c7MergedOverlapGen (na nb ns : String) (t1 t3 t4 : PrimKind) : List (String × Json) :=
  [(na, primJson t1), (nb, primJson t3), (ns, primJson t4)]

/-- The placeholder fragment text the request-body synthesizer emits for
each primitive kind. -/
def primDefault : PrimKind → String
  | .pBool => "false"
  | .pStr => "\"\""
  | .pInt => "0"
  | .pNum => "0"

/-- A property name that interferes with neither the jsonpath syntax the
cycle guard scans (`.`, `$`) nor the JSON string syntax the `allOf` member
re-parse reads (`"`, `\\`). -/
def goodC7Name (n : String) : Prop :=
  '.' ∉ n.data ∧ '$' ∉ n.data ∧ '"' ∉ n.data ∧ '\\' ∉ n.data

instance (n : String) : Decidable (goodC7Name n) := by
  unfold goodC7Name
  infer_instance

/-- The serialized fragment the request-body synthesizer emits for a
two-property member object. -/
def memberFrag (n1 n2 : String) (k1 k2 : PrimKind) : String :=
  "\x7b\n" ++ joinWith ",\n"
    [singlePropertyFormatter (some n1) (primDefault k1),
     singlePropertyFormatter (some n2) (primDefault k2)] ++ "\n\x7d"

/-- An object member used twice in a diamond-shaped `allOf`, deriving the
same assertions through two paths. -/
def c8Member : Schema := .mk false false (.typeObject [("x", .item intSchema)] ["x"])

def c8Doc : OpenAPIDoc :=
  ⟨[("/p", "get", ⟨some "op", [], none,
      [(.code 200, .item ⟨[("application/json",
          ⟨some (.item (.mk false false (.allOf [.item c8Member, .item c8Member])))⟩)]⟩)]⟩)],
   none⟩

/-- The single output record `generate` builds for `c8Doc`: the assertion
list derived twice through the diamond has been de-duplicated. -/
def c8Output : Output :=
  ⟨200, "op_200.hurl", "/p", "GET", [], [],
   ["jsonpath \"$\" isCollection", "jsonpath \"$.x\" isInteger"], ""⟩

/-- One operation with a single 200 response carrying the given content
map. -/
def mkRespDoc (content : List (String × MediaType)) : OpenAPIDoc :=
  ⟨[("/p", "get", ⟨some "op", [], none, [(.code 200, .item ⟨content⟩)]⟩)], none⟩

/-- One operation with a request body carrying the given content map and
no responses. -/
def mkReqDoc (content : List (String × MediaType)) : OpenAPIDoc :=
  ⟨[("/p", "get", ⟨some "op", [], some (.item ⟨content⟩), []⟩)], none⟩

/-- A media type with no schema. -/
def mtNone : MediaType := ⟨none⟩

/-- A media type with an inline string schema. -/
def mtStr : MediaType := ⟨some (.item strSchema)⟩

/-- A content map whose JSON entry is keyed
`application/json; charset=utf-8` and is not first. -/
def c9Content : List (String × MediaType) :=
  [("text/plain", mtNone), ("application/json; charset=utf-8", mtStr)]

/-! ## Helper lemmas: reference-name extraction -/

theorem subAfterFirst_eq_none_iff (sep s : List Char) :
    subAfterFirst sep s = none ↔ ¬ sep <:+: s := by
  induction s with
  | nil =>
    cases h : sep.isPrefixOf ([] : List Char) with
    | false =>
      have hp : sep ≠ [] := by
        intro he
        subst he
        simp [List.isPrefixOf] at h
      simp only [subAfterFirst, h, Bool.false_eq_true, if_false]
      simp only [true_iff]
      intro hc
      exact hp (List.eq_nil_of_infix_nil hc)
    | true =>
      have hp : sep <+: ([] : List Char) := List.isPrefixOf_iff_prefix.mp h
      simp [subAfterFirst, h, hp.isInfix]
  | cons c t ih =>
    cases h : sep.isPrefixOf (c :: t) with
    | false =>
      have hp : ¬ sep <+: c :: t := by
        intro hc
        rw [List.isPrefixOf_iff_prefix.mpr hc] at h
        exact Bool.true_eq_false.mp h
      simp only [subAfterFirst, h, Bool.false_eq_true, if_false]
      rw [ih, List.infix_cons_iff]
      simp [hp]
    | true =>
      have hp : sep <+: c :: t := List.isPrefixOf_iff_prefix.mp h
      simp [subAfterFirst, h, hp.isInfix]

theorem subUpToFirst_of_not_infix (sep s : List Char) (h : ¬ sep <:+: s) :
    subUpToFirst sep s = s := by
  induction s with
  | nil => rfl
  | cons c t ih =>
    have hp : sep.isPrefixOf (c :: t) = false := by
      cases hb : sep.isPrefixOf (c :: t) with
      | false => rfl
      | true => exact absurd (List.isPrefixOf_iff_prefix.mp hb).isInfix h
    have ht : ¬ sep <:+: t := fun hc => h (List.infix_cons_iff.mpr (Or.inr hc))
    simp [subUpToFirst, hp, ih ht]

theorem subAfterFirst_append (sep rest : List Char) :
    subAfterFirst sep (sep ++ rest) = some rest := by
  have hpre : sep.isPrefixOf (sep ++ rest) = true :=
    List.isPrefixOf_iff_prefix.mpr (List.prefix_append _ _)
  cases hs : sep ++ rest with
  | nil =>
    rcases List.append_eq_nil.mp hs with ⟨h1, h2⟩
    subst h1
    subst h2
    simp [subAfterFirst]
  | cons c t =>
    rw [hs] at hpre
    simp only [subAfterFirst, hpre, if_true]
    rw [← hs, List.drop_left]

theorem refName_eq_none_iff (pfx r : String) :
    refName pfx r = none ↔ ¬ pfx.data <:+: r.data := by
  rw [refName, Option.map_eq_none', subAfterFirst_eq_none_iff]

theorem refName_concat (pfx name : String) (h : ¬ pfx.data <:+: name.data) :
    refName pfx (pfx ++ name) = some name := by
  rw [refName, String.data_append, subAfterFirst_append, Option.map_some',
    subUpToFirst_of_not_infix _ _ h]

/-! ## Helper lemmas: order-preserving de-duplication -/

theorem mem_uniqueFirstFilter {α : Type} [DecidableEq α] (l : List α) (a : α) :
    a ∈ uniqueFirstFilter l ↔ a ∈ l := by
  induction l using uniqueFirstFilter.induct with
  | case1 => simp [uniqueFirstFilter]
  | case2 b t ih =>
    rw [uniqueFirstFilter]
    by_cases hab : a = b
    · simp [hab]
    · simp only [List.mem_cons, ih, List.mem_filter, hab, false_or, decide_eq_true_eq]
      simp [hab]

theorem uniqueFirstFilter_nodup {α : Type} [DecidableEq α] (l : List α) :
    (uniqueFirstFilter l).Nodup := by
  induction l using uniqueFirstFilter.induct with
  | case1 => simp [uniqueFirstFilter]
  | case2 b t ih =>
    rw [uniqueFirstFilter]
    refine List.nodup_cons.mpr ⟨?_, ih⟩
    intro hb
    rcases List.mem_filter.mp ((mem_uniqueFirstFilter _ _).mp hb) with ⟨-, hne⟩
    exact absurd rfl (of_decide_eq_true hne)

theorem uniqueFirstFilter_sublist {α : Type} [DecidableEq α] (l : List α) :
    List.Sublist (uniqueFirstFilter l) l := by
  induction l using uniqueFirstFilter.induct with
  | case1 => simp [uniqueFirstFilter]
  | case2 b t ih =>
    rw [uniqueFirstFilter]
    exact List.Sublist.cons₂ b (ih.trans (List.filter_sublist t))

theorem uniqueFirstFilter_append_aux {α : Type} [DecidableEq α] :
    ∀ (n : Nat) (l₁ l₂ : List α), l₁.length ≤ n →
      uniqueFirstFilter (l₁ ++ l₂) =
        uniqueFirstFilter l₁ ++ uniqueFirstFilter (l₂.filter fun b => decide (b ∉ l₁)) := by
  intro n
  induction n with
  | zero =>
    intro l₁ l₂ hl
    rw [List.length_eq_zero.mp (Nat.le_zero.mp hl)]
    simp only [List.nil_append, uniqueFirstFilter, List.not_mem_nil, not_false_iff, decide_True]
    rw [List.filter_true]
  | succ n ih =>
    intro l₁ l₂ hl
    cases l₁ with
    | nil =>
      simp only [List.nil_append, uniqueFirstFilter, List.not_mem_nil, not_false_iff, decide_True]
      rw [List.filter_true]
    | cons a t =>
      rw [List.cons_append, uniqueFirstFilter, uniqueFirstFilter, List.filter_append]
      have hlen : (t.filter fun b => decide (b ≠ a)).length ≤ n := by
        have := List.length_filter_le (fun b => decide (b ≠ a)) t
        simp only [List.length_cons] at hl
        omega
      rw [ih _ _ hlen, List.filter_filter]
      have hfeq :
          (l₂.filter fun x =>
              decide (x ∉ t.filter fun b => decide (b ≠ a)) && decide (x ≠ a)) =
            l₂.filter fun b => decide (b ∉ a :: t) := by
        apply List.filter_congr
        intro x _
        by_cases hxa : x = a
        · subst hxa
          simp
        · by_cases hxt : x ∈ t
          · simp [List.mem_filter, hxa, hxt]
          · simp [List.mem_filter, hxa, hxt]
      rw [hfeq, List.cons_append]

theorem uniqueFirstFilter_append {α : Type} [DecidableEq α] (l₁ l₂ : List α) :
    uniqueFirstFilter (l₁ ++ l₂) =
      uniqueFirstFilter l₁ ++ uniqueFirstFilter (l₂.filter fun b => decide (b ∉ l₁)) :=
  uniqueFirstFilter_append_aux l₁.length l₁ l₂ (Nat.le_refl _)

theorem uniqueFirstAux_eq_filter {α : Type} [DecidableEq α] :
    ∀ (l : List α) (seen : List α),
      uniqueFirstAux seen l = uniqueFirstFilter (l.filter fun b => decide (b ∉ seen)) := by
  intro l
  induction l with
  | nil =>
    intro seen
    simp [uniqueFirstAux, uniqueFirstFilter]
  | cons a t ih =>
    intro seen
    by_cases ha : a ∈ seen
    · simp only [uniqueFirstAux, ha, if_true, List.filter_cons, decide_eq_true_eq,
        not_true_eq_false]
      simp only [ha, not_true_eq_false, decide_False, Bool.false_eq_true, if_false]
      exact ih seen
    · simp only [uniqueFirstAux, ha, if_false, List.filter_cons]
      simp only [ha, not_false_iff, decide_True, if_true]
      rw [uniqueFirstFilter, ih (a :: seen), List.filter_filter]
      have hfeq : (t.filter fun x => decide (x ≠ a) && decide (x ∉ seen)) =
          t.filter fun b => decide (b ∉ a :: seen) := by
        apply List.filter_congr
        intro x _
        by_cases hxa : x = a
        · subst hxa
          simp
        · by_cases hxs : x ∈ seen
          · simp [hxa, hxs]
          · simp [hxa, hxs]
      rw [hfeq]

theorem uniqueFirst_eq_filter {α : Type} [DecidableEq α] (l : List α) :
    uniqueFirst l = uniqueFirstFilter l := by
  rw [uniqueFirst, uniqueFirstAux_eq_filter l []]
  congr 1
  simp

theorem mem_uniqueFirst {α : Type} [DecidableEq α] (l : List α) (a : α) :
    a ∈ uniqueFirst l ↔ a ∈ l := by
  rw [uniqueFirst_eq_filter]
  exact mem_uniqueFirstFilter l a

theorem uniqueFirst_nodup {α : Type} [DecidableEq α] (l : List α) :
    (uniqueFirst l).Nodup := by
  rw [uniqueFirst_eq_filter]
  exact uniqueFirstFilter_nodup l

theorem uniqueFirst_sublist {α : Type} [DecidableEq α] (l : List α) :
    List.Sublist (uniqueFirst l) l := by
  rw [uniqueFirst_eq_filter]
  exact uniqueFirstFilter_sublist l

theorem uniqueFirst_append {α : Type} [DecidableEq α] (l₁ l₂ : List α) :
    uniqueFirst (l₁ ++ l₂) =
      uniqueFirst l₁ ++ uniqueFirst (l₂.filter fun b => decide (b ∉ l₁)) := by
  rw [uniqueFirst_eq_filter, uniqueFirst_eq_filter, uniqueFirst_eq_filter]
  exact uniqueFirstFilter_append l₁ l₂

/-! ## Helper lemmas: fuel monotonicity of the synthesizers -/

theorem assertPropsLoop_mono (doc : OpenAPIDoc) (ctx : DiagnosticContext)
    (c₁ c₂ : Schema → String → Bool → Option (List String × List Diag))
    (hc : ∀ s p r v, c₁ s p r = some v → c₂ s p r = some v) :
    ∀ required jsonpath isRequired props v,
      assertPropsLoop doc ctx c₁ required jsonpath isRequired props = some v →
      assertPropsLoop doc ctx c₂ required jsonpath isRequired props = some v := by
  intro required jsonpath isRequired props
  induction props with
  | nil => intro v h; exact h
  | cons hd tl ih =>
    obtain ⟨name, p⟩ := hd
    intro v h
    rw [assertPropsLoop] at h ⊢
    rcases hres : resolveSchema doc p ctx with ⟨rs, ds⟩
    cases rs with
    | none =>
      simp only [hres] at h ⊢
      exact h
    | some inner =>
      simp only [hres] at h ⊢
      cases hch : c₁ inner
          (if name.data.any (fun c => c = '@' || c = '$') then jsonpath ++ "['" ++ name ++ "']"
           else jsonpath ++ "." ++ name)
          (isRequired && required.contains name) with
      | none =>
        simp only [hch] at h
        exact Option.noConfusion h
      | some cv =>
        obtain ⟨cas, cds⟩ := cv
        simp only [hch] at h
        simp only [hc _ _ _ _ hch]
        cases hrest : assertPropsLoop doc ctx c₁ required jsonpath isRequired tl with
        | none =>
          simp only [hrest] at h
          exact Option.noConfusion h
        | some rv =>
          obtain ⟨ras, rds⟩ := rv
          simp only [hrest] at h
          simp only [ih _ hrest]
          exact h

theorem assertAllLoop_mono (doc : OpenAPIDoc) (ctx : DiagnosticContext)
    (c₁ c₂ : Schema → Option (List String × List Diag))
    (hc : ∀ s v, c₁ s = some v → c₂ s = some v) :
    ∀ members v,
      assertAllLoop doc ctx c₁ members = some v →
      assertAllLoop doc ctx c₂ members = some v := by
  intro members
  induction members with
  | nil => intro v h; exact h
  | cons m rest ih =>
    intro v h
    rw [assertAllLoop] at h ⊢
    rcases hres : resolveSchema doc m ctx with ⟨rs, ds⟩
    cases rs with
    | none =>
      simp only [hres] at h ⊢
      cases hrest : assertAllLoop doc ctx c₁ rest with
      | none =>
        simp only [hrest] at h
        exact Option.noConfusion h
      | some rv =>
        obtain ⟨ras, rds⟩ := rv
        simp only [hrest] at h
        simp only [ih _ hrest]
        exact h
    | some s =>
      simp only [hres] at h ⊢
      cases hch : c₁ s with
      | none =>
        simp only [hch] at h
        exact Option.noConfusion h
      | some cv =>
        obtain ⟨cas, cds⟩ := cv
        simp only [hch] at h
        simp only [hc _ _ hch]
        cases hrest : assertAllLoop doc ctx c₁ rest with
        | none =>
          simp only [hrest] at h
          exact Option.noConfusion h
        | some rv =>
          obtain ⟨ras, rds⟩ := rv
          simp only [hrest] at h
          simp only [ih _ hrest]
          exact h

theorem genAssert_mono (doc : OpenAPIDoc) (ctx : DiagnosticContext) :
    ∀ fuel schema jsonpath isRequired v,
      genAssert fuel doc schema jsonpath isRequired ctx = some v →
      genAssert (fuel + 1) doc schema jsonpath isRequired ctx = some v := by
  intro fuel
  induction fuel with
  | zero =>
    intro schema jsonpath isRequired v h
    exact Option.noConfusion h
  | succ fuel ih =>
    intro schema jsonpath isRequired v h
    rw [genAssert] at h ⊢
    cases hw : schema.writeOnly with
    | true =>
      simp only [hw] at h ⊢
      exact h
    | false =>
      simp only [hw, Bool.false_eq_true, if_false] at h ⊢
      cases hcy : detectCycle jsonpath with
      | true =>
        simp only [hcy] at h ⊢
        exact h
      | false =>
        simp only [hcy, Bool.false_eq_true, if_false] at h ⊢
        cases hk : schema.kind with
        | oneOf => simp only [hk] at h ⊢; exact h
        | anyOf => simp only [hk] at h ⊢; exact h
        | notKind => simp only [hk] at h ⊢; exact h
        | anyKind => simp only [hk] at h ⊢; exact h
        | typeBoolean => simp only [hk] at h ⊢; exact h
        | typeString => simp only [hk] at h ⊢; exact h
        | typeNumber => simp only [hk] at h ⊢; exact h
        | typeInteger => simp only [hk] at h ⊢; exact h
        | allOf members =>
          simp only [hk] at h ⊢
          exact assertAllLoop_mono doc ctx _ _
            (fun s w hs => ih s jsonpath isRequired w hs) members v h
        | typeArray items =>
          simp only [hk] at h ⊢
          cases items with
          | none => exact h
          | some itemRef =>
            rcases hres : resolveSchema doc itemRef ctx with ⟨rs, ds⟩
            cases rs with
            | none =>
              simp only [hres] at h ⊢
              exact h
            | some inner =>
              simp only [hres] at h ⊢
              cases hch : genAssert fuel doc inner (jsonpath ++ "[0]") false ctx with
              | none =>
                simp only [hch] at h
                exact Option.noConfusion h
              | some cv =>
                obtain ⟨cas, cds⟩ := cv
                simp only [hch] at h
                simp only [ih _ _ _ _ hch]
                exact h
        | typeObject properties required =>
          simp only [hk] at h ⊢
          cases hprops : assertPropsLoop doc ctx
              (fun s p r => genAssert fuel doc s p r ctx) required jsonpath isRequired
              properties with
          | none =>
            simp only [hprops] at h
            exact Option.noConfusion h
          | some pv =>
            obtain ⟨pas, pds⟩ := pv
            simp only [hprops] at h
            have h2 := assertPropsLoop_mono doc ctx _ _
              (fun s p r w hs => ih s p r w hs) required jsonpath isRequired properties _ hprops
            simp only [h2]
            exact h

theorem genAssert_mono_le (doc : OpenAPIDoc) (ctx : DiagnosticContext)
    {fuel fuel' : Nat} (hle : fuel ≤ fuel') {schema : Schema} {jsonpath : String}
    {isRequired : Bool} {v : List String × List Diag}
    (h : genAssert fuel doc schema jsonpath isRequired ctx = some v) :
    genAssert fuel' doc schema jsonpath isRequired ctx = some v := by
  induction hle with
  | refl => exact h
  | step _ ih => exact genAssert_mono doc ctx _ _ _ _ _ ih

theorem processResponse_nodup (fuel : Nat) (doc : OpenAPIDoc) (ctx : DiagnosticContext)
    (opName path method : String) (hps qps : List String) (rbp : Option String)
    (sc : StatusCode) (resp : ReferenceOr Response) (outs : List Output) (ds : List Diag)
    (h : processResponse fuel doc ctx opName path method hps qps rbp sc resp = some (outs, ds)) :
    ∀ o ∈ outs, o.asserts.Nodup := by
  cases sc with
  | range n =>
    simp only [processResponse, Option.some.injEq, Prod.mk.injEq] at h
    obtain ⟨h1, -⟩ := h
    subst h1
    intro o ho
    exact absurd ho (List.not_mem_nil o)
  | code code =>
    simp only [processResponse] at h
    rcases hres : resolveResponse doc resp ctx with ⟨rr, rds⟩
    cases rr with
    | none =>
      simp only [hres, Option.some.injEq, Prod.mk.injEq] at h
      obtain ⟨h1, -⟩ := h
      subst h1
      intro o ho
      exact absurd ho (List.not_mem_nil o)
    | some r =>
      simp only [hres] at h
      cases hmt : findJsonMediaType r.content with
      | none =>
        simp only [hmt, Option.some.injEq, Prod.mk.injEq] at h
        obtain ⟨h1, -⟩ := h
        subst h1
        intro o ho
        exact absurd ho (List.not_mem_nil o)
      | some mt =>
        simp only [hmt] at h
        cases hsch : mt.schema with
        | none =>
          simp only [hsch, Option.some.injEq, Prod.mk.injEq] at h
          obtain ⟨h1, -⟩ := h
          subst h1
          intro o ho
          exact absurd ho (List.not_mem_nil o)
        | some sRef =>
          simp only [hsch] at h
          rcases hrs : resolveSchema doc sRef ctx with ⟨rs, sds⟩
          cases rs with
          | none =>
            simp only [hrs, Option.some.injEq, Prod.mk.injEq] at h
            obtain ⟨h1, -⟩ := h
            subst h1
            intro o ho
            exact absurd ho (List.not_mem_nil o)
          | some s =>
            simp only [hrs] at h
            cases hga : genAssert fuel doc s "$" true ctx with
            | none =>
              simp only [hga] at h
              exact Option.noConfusion h
            | some av =>
              obtain ⟨asserts, ads⟩ := av
              simp only [hga, Option.some.injEq, Prod.mk.injEq] at h
              obtain ⟨h1, -⟩ := h
              subst h1
              intro o ho
              rcases List.mem_singleton.mp ho with rfl
              exact uniqueFirst_nodup asserts

theorem processResponses_nodup (fuel : Nat) (doc : OpenAPIDoc) (ctx : DiagnosticContext)
    (opName path method : String) (hps qps : List String) (rbp : Option String) :
    ∀ (rs : List (StatusCode × ReferenceOr Response)) (outs : List Output) (ds : List Diag),
      processResponses fuel doc ctx opName path method hps qps rbp rs = some (outs, ds) →
      ∀ o ∈ outs, o.asserts.Nodup := by
  intro rs
  induction rs with
  | nil =>
    intro outs ds h
    simp only [processResponses, Option.some.injEq, Prod.mk.injEq] at h
    obtain ⟨h1, -⟩ := h
    subst h1
    intro o ho
    exact absurd ho (List.not_mem_nil o)
  | cons hd tl ih =>
    obtain ⟨sc, resp⟩ := hd
    intro outs ds h
    rw [processResponses] at h
    cases h1 : processResponse fuel doc ctx opName path method hps qps rbp sc resp with
    | none =>
      simp only [h1] at h
      exact Option.noConfusion h
    | some v1 =>
      obtain ⟨outs1, ds1⟩ := v1
      simp only [h1] at h
      cases h2 : processResponses fuel doc ctx opName path method hps qps rbp tl with
      | none =>
        simp only [h2] at h
        exact Option.noConfusion h
      | some v2 =>
        obtain ⟨outs2, ds2⟩ := v2
        simp only [h2, Option.some.injEq, Prod.mk.injEq] at h
        obtain ⟨ho, -⟩ := h
        subst ho
        intro o ho
        rcases List.mem_append.mp ho with hm | hm
        · exact processResponse_nodup fuel doc ctx opName path method hps qps rbp sc resp
            outs1 ds1 h1 o hm
        · exact ih outs2 ds2 h2 o hm

theorem processOperation_nodup (fuel : Nat) (doc : OpenAPIDoc)
    (entry : String × String × Operation) (outs : List Output) (ds : List Diag)
    (h : processOperation fuel doc entry = some (outs, ds)) :
    ∀ o ∈ outs, o.asserts.Nodup := by
  rw [processOperation] at h
  cases h1 : processRequestBody fuel doc
      ⟨entry.2.2.operationId.getD (entry.2.1 ++ "_" ++ strReplace entry.1 "/" "_"), entry.1⟩
      entry.2.2.requestBody with
  | none =>
    rw [h1] at h
    exact Option.noConfusion h
  | some v1 =>
    obtain ⟨rbp, rbds⟩ := v1
    rw [h1] at h
    simp only [] at h
    cases h2 : processResponses fuel doc
        ⟨entry.2.2.operationId.getD (entry.2.1 ++ "_" ++ strReplace entry.1 "/" "_"), entry.1⟩
        (entry.2.2.operationId.getD (entry.2.1 ++ "_" ++ strReplace entry.1 "/" "_"))
        entry.1 entry.2.1
        (processParams doc
          ⟨entry.2.2.operationId.getD (entry.2.1 ++ "_" ++ strReplace entry.1 "/" "_"), entry.1⟩
          entry.2.2.parameters).2.1
        (processParams doc
          ⟨entry.2.2.operationId.getD (entry.2.1 ++ "_" ++ strReplace entry.1 "/" "_"), entry.1⟩
          entry.2.2.parameters).1
        rbp entry.2.2.responses with
    | none =>
      rw [h2] at h
      exact Option.noConfusion h
    | some v2 =>
      obtain ⟨outs2, rds2⟩ := v2
      rw [h2] at h
      simp only [Option.some.injEq, Prod.mk.injEq] at h
      obtain ⟨ho, -⟩ := h
      subst ho
      exact processResponses_nodup fuel doc _ _ _ _ _ _ _ _ _ _ h2

theorem generateGo_nodup (fuel : Nat) (doc : OpenAPIDoc) :
    ∀ (entries : List (String × String × Operation)) (outs : List Output) (ds : List Diag),
      generateGo fuel doc entries = some (outs, ds) →
      ∀ o ∈ outs, o.asserts.Nodup := by
  intro entries
  induction entries with
  | nil =>
    intro outs ds h
    simp only [generateGo, Option.some.injEq, Prod.mk.injEq] at h
    obtain ⟨h1, -⟩ := h
    subst h1
    intro o ho
    exact absurd ho (List.not_mem_nil o)
  | cons e tl ih =>
    intro outs ds h
    rw [generateGo] at h
    cases h1 : processOperation fuel doc e with
    | none =>
      simp only [h1] at h
      exact Option.noConfusion h
    | some v1 =>
      obtain ⟨outs1, ds1⟩ := v1
      simp only [h1] at h
      cases h2 : generateGo fuel doc tl with
      | none =>
        simp only [h2] at h
        exact Option.noConfusion h
      | some v2 =>
        obtain ⟨outs2, ds2⟩ := v2
        simp only [h2, Option.some.injEq, Prod.mk.injEq] at h
        obtain ⟨ho, -⟩ := h
        subst ho
        intro o ho
        rcases List.mem_append.mp ho with hm | hm
        · exact processOperation_nodup fuel doc e outs1 ds1 h1 o hm
        · exact ih outs2 ds2 h2 o hm

/-! ## Helper lemmas: the cycle guard on generic property names -/

theorem splitOnDot_sep (l₁ l₂ : List Char) (h : '.' ∉ l₁) :
    splitOnDot (l₁ ++ '.' :: l₂) = l₁ :: splitOnDot l₂ := by
  induction l₁ with
  | nil => simp [splitOnDot]
  | cons c t ih =>
    have hc : c ≠ '.' := fun he => h (he ▸ List.mem_cons_self c t)
    have ht : '.' ∉ t := fun hm => h (List.mem_cons_of_mem c hm)
    rw [List.cons_append, splitOnDot]
    simp only [hc, if_false, ih ht]

theorem splitOnDot_no_dot (l : List Char) (h : '.' ∉ l) :
    splitOnDot l = [l] := by
  induction l with
  | nil => rfl
  | cons c t ih =>
    have hc : c ≠ '.' := fun he => h (he ▸ List.mem_cons_self c t)
    have ht : '.' ∉ t := fun hm => h (List.mem_cons_of_mem c hm)
    rw [splitOnDot]
    simp only [hc, if_false, ih ht]

theorem detectCycle_one (p : String) (hd : '.' ∉ p.data) (hs : p.data ≠ ['$']) :
    detectCycle ("$" ++ "." ++ p) = false := by
  show cycleParts (splitOnDot (['$'] ++ '.' :: p.data)).reverse = false
  rw [splitOnDot_sep _ _ (by decide), splitOnDot_no_dot p.data hd]
  simp [cycleParts, hs, Ne.symm hs]

theorem skipWs_nil : skipWs [] = [] := rfl

theorem skipWs_nl (l : List Char) : skipWs ('\n' :: l) = skipWs l := rfl

theorem skipWs_colon (l : List Char) : skipWs (':' :: l) = ':' :: l := rfl

theorem skipWs_comma (l : List Char) : skipWs (',' :: l) = ',' :: l := rfl

theorem skipWs_quote (l : List Char) : skipWs ('"' :: l) = '"' :: l := rfl

theorem skipWs_rbrace (l : List Char) : skipWs ('\x7d' :: l) = '\x7d' :: l := rfl

theorem parseStringBody_exact (l : List Char) : ∀ rest : List Char,
    '"' ∉ l → '\\' ∉ l →
    parseStringBody (l ++ '"' :: rest) = some (String.mk l, rest) := by
  induction l with
  | nil => intro rest _ _; rfl
  | cons c t ih =>
    intro rest h1 h2
    have hc1 : c ≠ '"' := fun he => h1 (he ▸ List.mem_cons_self c t)
    have hc2 : c ≠ '\\' := fun he => h2 (he ▸ List.mem_cons_self c t)
    have ht1 : '"' ∉ t := fun hm => h1 (List.mem_cons_of_mem c hm)
    have ht2 : '\\' ∉ t := fun hm => h2 (List.mem_cons_of_mem c hm)
    rw [List.cons_append, parseStringBody, if_neg hc1, if_neg hc2, ih rest ht1 ht2]

theorem parseStringBody_str (n : String) (rest : List Char)
    (h1 : '"' ∉ n.data) (h2 : '\\' ∉ n.data) :
    parseStringBody (n.data ++ '"' :: rest) = some (n, rest) :=
  parseStringBody_exact n.data rest h1 h2

theorem parseVal_prim (fuel : Nat) (k : PrimKind) (c : Char) (rest : List Char)
    (hc : c = ',' ∨ c = '\n') :
    parseVal (fuel + 1) (' ' :: ((primDefault k).data ++ c :: rest)) =
      some (primJson k, c :: rest) := by
  rcases hc with h | h <;> subst h <;> cases k <;> rfl

theorem parseVal_lbrace (fuel : Nat) (l : List Char) :
    parseVal (fuel + 1) ('\x7b' :: '\n' :: '"' :: l) =
      (parseFields fuel ('"' :: l)).map fun p => (Json.jobj p.1, p.2) := rfl

theorem parseFields_key (fuel : Nat) (l : List Char) :
    parseFields (fuel + 1) ('"' :: l) =
      match parseStringBody l with
      | none => none
      | some (key, r) =>
        match skipWs r with
        | ':' :: r2 =>
          match parseVal fuel r2 with
          | none => none
          | some (v, r3) =>
            match skipWs r3 with
            | ',' :: r4 =>
              match parseFields fuel (skipWs r4) with
              | none => none
              | some (fs, r5) => some ((key, v) :: fs, r5)
            | '\x7d' :: r4 => some ([(key, v)], r4)
            | _ => none
        | _ => none := rfl

theorem parseFields_key2 (fuel : Nat) (n : String) (X : List Char)
    (h1 : '"' ∉ n.data) (h2 : '\\' ∉ n.data) :
    parseFields (fuel + 1) ('"' :: (n.data ++ '"' :: ':' :: ' ' :: X)) =
      match parseVal fuel (' ' :: X) with
      | none => none
      | some (v, r3) =>
        match skipWs r3 with
        | ',' :: r4 =>
          match parseFields fuel (skipWs r4) with
          | none => none
          | some (fs, r5) => some ((n, v) :: fs, r5)
        | '\x7d' :: r4 => some ([(n, v)], r4)
        | _ => none := by
  rw [parseFields_key, parseStringBody_str n _ h1 h2]
  rfl

theorem parseFields_two (fuel : Nat) (n1 n2 : String) (k1 k2 : PrimKind) (rest : List Char)
    (h1 : '"' ∉ n1.data) (h1b : '\\' ∉ n1.data)
    (h2 : '"' ∉ n2.data) (h2b : '\\' ∉ n2.data) :
    parseFields (fuel + 3)
        ('"' :: (n1.data ++ '"' :: ':' :: ' ' ::
          ((primDefault k1).data ++ ',' :: '\n' :: '"' ::
            (n2.data ++ '"' :: ':' :: ' ' ::
              ((primDefault k2).data ++ '\n' :: '\x7d' :: rest))))) =
      some ([(n1, primJson k1), (n2, primJson k2)], rest) := by
  rw [parseFields_key2 (fuel + 2) n1 _ h1 h1b]
  have hv1 : parseVal (fuel + 2)
      (' ' :: ((primDefault k1).data ++ ',' :: '\n' :: '"' ::
        (n2.data ++ '"' :: ':' :: ' ' :: ((primDefault k2).data ++ '\n' :: '\x7d' :: rest)))) =
      some (primJson k1, ',' :: '\n' :: '"' ::
        (n2.data ++ '"' :: ':' :: ' ' :: ((primDefault k2).data ++ '\n' :: '\x7d' :: rest))) :=
    parseVal_prim (fuel + 1) k1 ',' _ (Or.inl rfl)
  rw [hv1]
  have hv2 : parseVal (fuel + 1)
      (' ' :: ((primDefault k2).data ++ '\n' :: '\x7d' :: rest)) =
      some (primJson k2, '\n' :: '\x7d' :: rest) :=
    parseVal_prim fuel k2 '\n' _ (Or.inr rfl)
  simp only [skipWs_comma, skipWs_nl, skipWs_quote,
    parseFields_key2 (fuel + 1) n2 _ h2 h2b, hv2, skipWs_rbrace]

theorem memberFrag_data (n1 n2 : String) (k1 k2 : PrimKind) :
    (memberFrag n1 n2 k1 k2).data =
      '\x7b' :: '\n' :: '"' :: (n1.data ++ '"' :: ':' :: ' ' ::
        ((primDefault k1).data ++ ',' :: '\n' :: '"' ::
          (n2.data ++ '"' :: ':' :: ' ' ::
            ((primDefault k2).data ++ '\n' :: '\x7d' :: [])))) := by
  have e1 : ("\x7b\n" : String).data = ['\x7b', '\n'] := rfl
  have e2 : (",\n" : String).data = [',', '\n'] := rfl
  have e3 : ("\"" : String).data = ['"'] := rfl
  have e4 : ("\": " : String).data = ['"', ':', ' '] := rfl
  have e5 : ("\n\x7d" : String).data = ['\n', '\x7d'] := rfl
  simp [memberFrag, joinWith, singlePropertyFormatter, String.data_append,
    e1, e2, e3, e4, e5]

theorem parseVal_memberFrag (fuel : Nat) (n1 n2 : String) (k1 k2 : PrimKind)
    (h1 : '"' ∉ n1.data) (h1b : '\\' ∉ n1.data)
    (h2 : '"' ∉ n2.data) (h2b : '\\' ∉ n2.data) :
    parseVal (fuel + 4) (memberFrag n1 n2 k1 k2).data =
      some (.jobj [(n1, primJson k1), (n2, primJson k2)], []) := by
  rw [memberFrag_data, parseVal_lbrace, parseFields_two fuel n1 n2 k1 k2 [] h1 h1b h2 h2b]
  rfl

theorem parseJson_memberFrag (n1 n2 : String) (k1 k2 : PrimKind)
    (h1 : '"' ∉ n1.data) (h1b : '\\' ∉ n1.data)
    (h2 : '"' ∉ n2.data) (h2b : '\\' ∉ n2.data) :
    parseJson (memberFrag n1 n2 k1 k2) = some (.jobj [(n1, primJson k1), (n2, primJson k2)]) := by
  rw [parseJson]
  have hlen : (memberFrag n1 n2 k1 k2).data.length + 1 =
      ((memberFrag n1 n2 k1 k2).data.length - 3) + 4 := by
    rw [memberFrag_data]
    simp
  rw [hlen, parseVal_memberFrag _ n1 n2 k1 k2 h1 h1b h2 h2b]
  rfl

theorem genBody_member (fuel : Nat) (doc : OpenAPIDoc) (ctx : DiagnosticContext)
    (n1 n2 : String) (k1 k2 : PrimKind)
    (hd1 : '.' ∉ n1.data) (hs1 : n1.data ≠ ['$'])
    (hd2 : '.' ∉ n2.data) (hs2 : n2.data ≠ ['$']) :
    genBody (fuel + 2) doc (c7Member n1 n2 k1 k2) none ctx "$" =
      some (some (memberFrag n1 n2 k1 k2), []) := by
  have hro : ¬ (Schema.readOnly (c7Member n1 n2 k1 k2) = true) := by
    simp [c7Member, Schema.readOnly]
  have hrop : ∀ k : PrimKind, ¬ (Schema.readOnly (primSchema k) = true) := by
    intro k
    cases k <;> simp [primSchema, boolSchema, strSchema, intSchema, numSchema, Schema.readOnly]
  have hc0 : ¬ (detectCycle "$" = true) := by decide
  have hcn1 : ¬ (detectCycle ("$" ++ "." ++ n1) = true) := by
    rw [detectCycle_one n1 hd1 hs1]
    simp
  have hcn2 : ¬ (detectCycle ("$" ++ "." ++ n2) = true) := by
    rw [detectCycle_one n2 hd2 hs2]
    simp
  have hres : ∀ s : Schema, resolveSchema doc (.item s) ctx = (some s, []) := fun s => rfl
  have hchild : ∀ (k : PrimKind) (n : String), ¬ (detectCycle ("$" ++ "." ++ n) = true) →
      genBody (fuel + 1) doc (primSchema k) (some n) ctx ("$" ++ "." ++ n) =
        some (some (singlePropertyFormatter (some n) (primDefault k)), []) := by
    intro k n hc
    cases k <;> (rw [genBody, if_neg (hrop _), if_neg hc]; rfl)
  rw [genBody, if_neg hro, if_neg hc0]
  simp only [c7Member, Schema.kind]
  rw [bodyPropsLoop, bodyPropsLoop, bodyPropsLoop]
  simp only [hres, hchild k1 n1 hcn1, hchild k2 n2 hcn2, List.nil_append, List.append_nil,
    List.cons_append, List.filterMap_cons, id_eq, List.filterMap_nil, memberFrag]

theorem string_ne_dollar (n : String) (h : '$' ∉ n.data) : n.data ≠ ['$'] := by
  intro he
  rw [he] at h
  simp at h

theorem c7_disjoint_general (fuel : Nat) (na nb nc nd : String) (t1 t2 t3 t4 : PrimKind)
    (ga : goodC7Name na) (gb : goodC7Name nb) (gc : goodC7Name nc) (gd : goodC7Name nd)
    (hac : na ≠ nc) (had : na ≠ nd) (hbc : nb ≠ nc) (hbd : nb ≠ nd) :
    genBody (fuel + 3) emptyDoc (c7DisjointGen na nb nc nd t1 t2 t3 t4) none ctx0 "$" =
      some (some (jsonToString (.jobj (c7MergedDisjointGen na nb nc nd t1 t2 t3 t4))), []) := by
  obtain ⟨gad, gas, gaq, gab⟩ := ga
  obtain ⟨gbd, gbs, gbq, gbb⟩ := gb
  obtain ⟨gcd, gcs, gcq, gcb⟩ := gc
  obtain ⟨gdd, gds, gdq, gdb⟩ := gd
  have hro : ¬ (Schema.readOnly (c7DisjointGen na nb nc nd t1 t2 t3 t4) = true) := by
    simp [c7DisjointGen, Schema.readOnly]
  have hc0 : ¬ (detectCycle "$" = true) := by decide
  have hres : ∀ s : Schema, resolveSchema emptyDoc (.item s) ctx0 = (some s, []) := fun s => rfl
  have hm1 : genBody (fuel + 2) emptyDoc (c7Member na nb t1 t2) none ctx0 "$" =
      some (some (memberFrag na nb t1 t2), []) :=
    genBody_member fuel emptyDoc ctx0 na nb t1 t2 gad (string_ne_dollar na gas)
      gbd (string_ne_dollar nb gbs)
  have hm2 : genBody (fuel + 2) emptyDoc (c7Member nc nd t3 t4) none ctx0 "$" =
      some (some (memberFrag nc nd t3 t4), []) :=
    genBody_member fuel emptyDoc ctx0 nc nd t3 t4 gcd (string_ne_dollar nc gcs)
      gdd (string_ne_dollar nd gds)
  have hp1 : parseJson (memberFrag na nb t1 t2) =
      some (.jobj [(na, primJson t1), (nb, primJson t2)]) :=
    parseJson_memberFrag na nb t1 t2 gaq gab gbq gbb
  have hp2 : parseJson (memberFrag nc nd t3 t4) =
      some (.jobj [(nc, primJson t3), (nd, primJson t4)]) :=
    parseJson_memberFrag nc nd t3 t4 gcq gcb gdq gdb
  have bac : (na == nc) = false := beq_eq_false_iff_ne.mpr hac
  have bad : (na == nd) = false := beq_eq_false_iff_ne.mpr had
  have bbc : (nb == nc) = false := beq_eq_false_iff_ne.mpr hbc
  have bbd : (nb == nd) = false := beq_eq_false_iff_ne.mpr hbd
  have hflat : mapAppend [(na, primJson t1), (nb, primJson t2)]
      (mapAppend [(nc, primJson t3), (nd, primJson t4)] []) =
      c7MergedDisjointGen na nb nc nd t1 t2 t3 t4 := by
    simp [mapAppend, List.lookup, c7MergedDisjointGen, bac, bad, bbc, bbd]
  rw [genBody, if_neg hro, if_neg hc0]
  simp only [c7DisjointGen, Schema.kind]
  rw [bodyAllLoop, bodyAllLoop, bodyAllLoop]
  simp only [hres, hm1, hm2, hp1, hp2, List.nil_append, List.append_nil]
  simp [allOfAssemble, hflat, c7MergedDisjointGen, joinWith]

theorem c7_overlap_general (fuel : Nat) (na nb ns : String) (t1 t2 t3 t4 : PrimKind)
    (ga : goodC7Name na) (gb : goodC7Name nb) (gs : goodC7Name ns)
    (hab : na ≠ nb) (has : na ≠ ns) (hbs : nb ≠ ns) :
    genBody (fuel + 3) emptyDoc (c7OverlapGen na ns nb t1 t2 t3 t4) none ctx0 "$" =
      some (some (jsonToString (.jobj (c7MergedOverlapGen na nb ns t1 t3 t4))), []) := by
  obtain ⟨gad, gas, gaq, gab⟩ := ga
  obtain ⟨gbd, gbs, gbq, gbb⟩ := gb
  obtain ⟨gsd, gss, gsq, gsb⟩ := gs
  have hro : ¬ (Schema.readOnly (c7OverlapGen na ns nb t1 t2 t3 t4) = true) := by
    simp [c7OverlapGen, Schema.readOnly]
  have hc0 : ¬ (detectCycle "$" = true) := by decide
  have hres : ∀ s : Schema, resolveSchema emptyDoc (.item s) ctx0 = (some s, []) := fun s => rfl
  have hm1 : genBody (fuel + 2) emptyDoc (c7Member na ns t1 t2) none ctx0 "$" =
      some (some (memberFrag na ns t1 t2), []) :=
    genBody_member fuel emptyDoc ctx0 na ns t1 t2 gad (string_ne_dollar na gas)
      gsd (string_ne_dollar ns gss)
  have hm2 : genBody (fuel + 2) emptyDoc (c7Member nb ns t3 t4) none ctx0 "$" =
      some (some (memberFrag nb ns t3 t4), []) :=
    genBody_member fuel emptyDoc ctx0 nb ns t3 t4 gbd (string_ne_dollar nb gbs)
      gsd (string_ne_dollar ns gss)
  have hp1 : parseJson (memberFrag na ns t1 t2) =
      some (.jobj [(na, primJson t1), (ns, primJson t2)]) :=
    parseJson_memberFrag na ns t1 t2 gaq gab gsq gsb
  have hp2 : parseJson (memberFrag nb ns t3 t4) =
      some (.jobj [(nb, primJson t3), (ns, primJson t4)]) :=
    parseJson_memberFrag nb ns t3 t4 gbq gbb gsq gsb
  have bab : (na == nb) = false := beq_eq_false_iff_ne.mpr hab
  have bas : (na == ns) = false := beq_eq_false_iff_ne.mpr has
  have bsb : (ns == nb) = false := beq_eq_false_iff_ne.mpr (Ne.symm hbs)
  have hflat : mapAppend [(na, primJson t1), (ns, primJson t2)]
      (mapAppend [(nb, primJson t3), (ns, primJson t4)] []) =
      c7MergedOverlapGen na nb ns t1 t3 t4 := by
    simp [mapAppend, List.lookup, c7MergedOverlapGen, bab, bas, bsb]
  rw [genBody, if_neg hro, if_neg hc0]
  simp only [c7OverlapGen, Schema.kind]
  rw [bodyAllLoop, bodyAllLoop, bodyAllLoop]
  simp only [hres, hm1, hm2, hp1, hp2, List.nil_append, List.append_nil]
  simp [allOfAssemble, hflat, c7MergedOverlapGen, joinWith]

/-! ## Claim theorems -/

/-- C1: on an operation's 200-response schema
`{type: object, required: [id], properties: {id: integer, name: string}}`,
the Assertion Synthesizer rooted at `$` with `is_required = true` produces
exactly `jsonpath "$" isCollection`, `jsonpath "$.id" isInteger` and
`#jsonpath "$.name" isString`, in that order. -/
theorem c1_concrete_scenario (fuel : Nat) (doc : OpenAPIDoc) (ctx : DiagnosticContext) :
    genAssert (3 + fuel) doc c1Schema "$" true ctx =
      some (["jsonpath \"$\" isCollection", "jsonpath \"$.id\" isInteger",
             "#jsonpath \"$.name\" isString"], []) :=
  genAssert_mono_le doc ctx (Nat.le_add_right 3 fuel) rfl

/-- C6: a write-only schema contributes no assertion (for itself or
anything beneath it, wherever it is mounted: any path, requiredness and
document), and beyond that leaves an enclosing object's property loop
unchanged; symmetrically a read-only schema contributes no request-body
fragment and disappears from an enclosing object's synthesized body. -/
theorem c6_visibility_flags :
    (∀ (fuel : Nat) (doc : OpenAPIDoc) (k : SchemaKind) (jsonpath : String)
        (isRequired : Bool) (ctx : DiagnosticContext) (ro : Bool),
        genAssert (fuel + 1) doc (.mk ro true k) jsonpath isRequired ctx = some ([], [])) ∧
    (∀ (fuel : Nat) (doc : OpenAPIDoc) (k : SchemaKind) (name : Option String)
        (jsonpath : String) (ctx : DiagnosticContext) (wo : Bool),
        genBody (fuel + 1) doc (.mk true wo k) name ctx jsonpath = some (none, [])) ∧
    (∀ (fuel : Nat) (doc : OpenAPIDoc) (ctx : DiagnosticContext) (required : List String)
        (jsonpath : String) (isRequired : Bool) (n : String) (ro : Bool) (k : SchemaKind)
        (rest : List (String × ReferenceOr Schema)),
        assertPropsLoop doc ctx (fun s p r => genAssert (fuel + 1) doc s p r ctx)
            required jsonpath isRequired ((n, .item (.mk ro true k)) :: rest) =
          assertPropsLoop doc ctx (fun s p r => genAssert (fuel + 1) doc s p r ctx)
            required jsonpath isRequired rest) ∧
    (∀ (fuel : Nat) (doc : OpenAPIDoc) (ctx : DiagnosticContext) (name : Option String)
        (jsonpath : String) (wo' : Bool) (reqs : List String) (n : String) (wo : Bool)
        (k : SchemaKind) (rest : List (String × ReferenceOr Schema)),
        detectCycle jsonpath = false →
        genBody (fuel + 2) doc
            (.mk false wo' (.typeObject ((n, .item (.mk true wo k)) :: rest) reqs))
            name ctx jsonpath =
          genBody (fuel + 2) doc (.mk false wo' (.typeObject rest reqs)) name ctx jsonpath) := by
  have hassert : ∀ (fuel : Nat) (doc : OpenAPIDoc) (k : SchemaKind) (jsonpath : String)
      (isRequired : Bool) (ctx : DiagnosticContext) (ro : Bool),
      genAssert (fuel + 1) doc (.mk ro true k) jsonpath isRequired ctx = some ([], []) := by
    intro fuel doc k jsonpath isRequired ctx ro
    rw [genAssert]
    simp [Schema.writeOnly]
  have hbody : ∀ (fuel : Nat) (doc : OpenAPIDoc) (k : SchemaKind) (name : Option String)
      (jsonpath : String) (ctx : DiagnosticContext) (wo : Bool),
      genBody (fuel + 1) doc (.mk true wo k) name ctx jsonpath = some (none, []) := by
    intro fuel doc k name jsonpath ctx wo
    rw [genBody]
    simp [Schema.readOnly]
  refine ⟨hassert, hbody, ?_, ?_⟩
  · intro fuel doc ctx required jsonpath isRequired n ro k rest
    rw [assertPropsLoop]
    simp only [resolveSchema, hassert]
    cases hrest : assertPropsLoop doc ctx (fun s p r => genAssert (fuel + 1) doc s p r ctx)
        required jsonpath isRequired rest with
    | none => rfl
    | some rv =>
      obtain ⟨ras, rds⟩ := rv
      simp
  · intro fuel doc ctx name jsonpath wo' reqs n wo k rest hcy
    rw [genBody, genBody]
    simp only [Schema.readOnly, Bool.false_eq_true, if_false, hcy, Schema.kind]
    rw [bodyPropsLoop]
    simp only [resolveSchema, hbody]
    cases hrest : bodyPropsLoop doc ctx
        (fun s nm p => genBody (fuel + 1) doc s nm ctx p) jsonpath rest with
    | none => rfl
    | some rv =>
      obtain ⟨fr, rds⟩ := rv
      cases fr with
      | none => simp
      | some frags => simp [List.filterMap_cons]

/-- C10: an array schema with no element schema yields exactly the single
`isCollection` assertion at its path and no diagnostic; the request-body
synthesizer yields no fragment and no diagnostic for it, and a named
array-without-items property simply disappears from the enclosing object's
synthesized body. -/
theorem c10_array_without_items :
    (∀ (fuel : Nat) (doc : OpenAPIDoc) (jsonpath : String) (isRequired : Bool)
        (ctx : DiagnosticContext) (ro : Bool),
        detectCycle jsonpath = false →
        genAssert (fuel + 1) doc (.mk ro false (.typeArray none)) jsonpath isRequired ctx =
          some ([isRequiredFormatter jsonpath "isCollection" isRequired], [])) ∧
    (∀ (fuel : Nat) (doc : OpenAPIDoc) (name : Option String) (jsonpath : String)
        (ctx : DiagnosticContext) (wo : Bool),
        detectCycle jsonpath = false →
        genBody (fuel + 1) doc (.mk false wo (.typeArray none)) name ctx jsonpath =
          some (none, [])) ∧
    (∀ (fuel : Nat) (doc : OpenAPIDoc) (ctx : DiagnosticContext) (name : Option String)
        (jsonpath : String) (wo' wo : Bool) (reqs : List String) (pn : String)
        (rest : List (String × ReferenceOr Schema)),
        detectCycle jsonpath = false →
        detectCycle (jsonpath ++ "." ++ pn) = false →
        genBody (fuel + 2) doc
            (.mk false wo' (.typeObject ((pn, .item (.mk false wo (.typeArray none))) :: rest) reqs))
            name ctx jsonpath =
          genBody (fuel + 2) doc (.mk false wo' (.typeObject rest reqs)) name ctx jsonpath) := by
  have hbody : ∀ (fuel : Nat) (doc : OpenAPIDoc) (name : Option String) (jsonpath : String)
      (ctx : DiagnosticContext) (wo : Bool),
      detectCycle jsonpath = false →
      genBody (fuel + 1) doc (.mk false wo (.typeArray none)) name ctx jsonpath =
        some (none, []) := by
    intro fuel doc name jsonpath ctx wo hcy
    rw [genBody]
    simp [Schema.readOnly, Schema.kind, hcy]
  refine ⟨?_, hbody, ?_⟩
  · intro fuel doc jsonpath isRequired ctx ro hcy
    rw [genAssert]
    simp [Schema.writeOnly, Schema.kind, hcy]
  · intro fuel doc ctx name jsonpath wo' wo reqs pn rest hcy hcy2
    rw [genBody, genBody]
    simp only [Schema.readOnly, Bool.false_eq_true, if_false, hcy, Schema.kind]
    rw [bodyPropsLoop]
    simp only [resolveSchema, hbody fuel doc (some pn) (jsonpath ++ "." ++ pn) ctx wo hcy2]
    cases hrest : bodyPropsLoop doc ctx
        (fun s nm p => genBody (fuel + 1) doc s nm ctx p) jsonpath rest with
    | none => rfl
    | some rv =>
      obtain ⟨fr, rds⟩ := rv
      cases fr with
      | none => simp
      | some frags => simp [List.filterMap_cons]

theorem c6_visibility_flags_witness :
    genBody 3 emptyDoc
        (.mk false false (.typeObject
          [("w", .item (.mk true false .typeString)), ("k", .item intSchema)] []))
        none ctx0 "$" =
      genBody 3 emptyDoc (.mk false false (.typeObject [("k", .item intSchema)] []))
        none ctx0 "$" :=
  c6_visibility_flags.2.2.2 1 emptyDoc ctx0 none "$" false [] "w" false .typeString
    [("k", .item intSchema)] (by decide)

theorem c10_array_without_items_witness :
    genAssert 1 emptyDoc (.mk false false (.typeArray none)) "$" true ctx0 =
      some ([isRequiredFormatter "$" "isCollection" true], []) ∧
    genBody 1 emptyDoc (.mk false false (.typeArray none)) none ctx0 "$" = some (none, []) ∧
    genBody 2 emptyDoc
        (.mk false false (.typeObject
          [("arr", .item (.mk false false (.typeArray none))), ("k", .item intSchema)] []))
        none ctx0 "$" =
      genBody 2 emptyDoc (.mk false false (.typeObject [("k", .item intSchema)] []))
        none ctx0 "$" :=
  ⟨c10_array_without_items.1 0 emptyDoc "$" true ctx0 false (by decide),
   c10_array_without_items.2.1 0 emptyDoc none "$" ctx0 false (by decide),
   c10_array_without_items.2.2 0 emptyDoc ctx0 none "$" false false [] "arr"
     [("k", .item intSchema)] (by decide) (by decide)⟩

/-- C2 as stated is refuted: with the object `{a: → missing ref, b: string}`
the assertion synthesizer keeps only the enclosing `isCollection` (sibling
`b`, declared after the failing property, contributes nothing; its would-be
assertion is absent), and the request-body synthesizer drops the whole
object. -/
theorem c2_counterexample :
    genAssert 5 c2Doc c2Schema "$" true ctx0 =
      some (["jsonpath \"$\" isCollection"],
            [.missingSchemaReference ctx0 "#/components/schemas/Missing"]) ∧
    genBody 5 c2Doc c2Schema none ctx0 "$" =
      some (none, [.missingSchemaReference ctx0 "#/components/schemas/Missing"]) ∧
    "#jsonpath \"$.b\" isString" ∉ ["jsonpath \"$\" isCollection"] := by
  decide

/-- C2 amended: a property whose schema reference fails to resolve keeps
the resolution diagnostics but abandons, in the Assertion Synthesizer, that
property and every property declared after it (properties declared before
it keep their assertions), and in the Request-Body Synthesizer the entire
enclosing object. -/
theorem c2_amended :
    (∀ (doc : OpenAPIDoc) (ctx : DiagnosticContext)
        (child : Schema → String → Bool → Option (List String × List Diag))
        (required : List String) (jsonpath : String) (isRequired : Bool)
        (bn bref : String) (rest : List (String × ReferenceOr Schema)),
        (resolveSchema doc (.ref bref) ctx).1 = none →
        assertPropsLoop doc ctx child required jsonpath isRequired ((bn, .ref bref) :: rest) =
          some ([], (resolveSchema doc (.ref bref) ctx).2)) ∧
    (∀ (doc : OpenAPIDoc) (ctx : DiagnosticContext)
        (child : Schema → Option String → String → Option (Option String × List Diag))
        (jsonpath : String) (bn bref : String) (rest : List (String × ReferenceOr Schema)),
        (resolveSchema doc (.ref bref) ctx).1 = none →
        bodyPropsLoop doc ctx child jsonpath ((bn, .ref bref) :: rest) =
          some (none, (resolveSchema doc (.ref bref) ctx).2)) ∧
    (∀ (doc : OpenAPIDoc) (ctx : DiagnosticContext)
        (child : Schema → String → Bool → Option (List String × List Diag))
        (required : List String) (jsonpath : String) (isRequired : Bool)
        (gn : String) (gs : Schema) (gas : List String) (gds : List Diag)
        (bn bref : String) (rest : List (String × ReferenceOr Schema)),
        (resolveSchema doc (.ref bref) ctx).1 = none →
        child gs
            (if gn.data.any (fun c => c = '@' || c = '$') then jsonpath ++ "['" ++ gn ++ "']"
             else jsonpath ++ "." ++ gn)
            (isRequired && required.contains gn) = some (gas, gds) →
        assertPropsLoop doc ctx child required jsonpath isRequired
            ((gn, .item gs) :: (bn, .ref bref) :: rest) =
          some (gas, gds ++ (resolveSchema doc (.ref bref) ctx).2)) := by
  have hassert : ∀ (doc : OpenAPIDoc) (ctx : DiagnosticContext)
      (child : Schema → String → Bool → Option (List String × List Diag))
      (required : List String) (jsonpath : String) (isRequired : Bool)
      (bn bref : String) (rest : List (String × ReferenceOr Schema)),
      (resolveSchema doc (.ref bref) ctx).1 = none →
      assertPropsLoop doc ctx child required jsonpath isRequired ((bn, .ref bref) :: rest) =
        some ([], (resolveSchema doc (.ref bref) ctx).2) := by
    intro doc ctx child required jsonpath isRequired bn bref rest h
    rw [assertPropsLoop]
    rcases hres : resolveSchema doc (.ref bref) ctx with ⟨rs, ds⟩
    rw [hres] at h
    cases rs with
    | none => simp [hres]
    | some s => exact absurd h (by simp)
  refine ⟨hassert, ?_, ?_⟩
  · intro doc ctx child jsonpath bn bref rest h
    rw [bodyPropsLoop]
    rcases hres : resolveSchema doc (.ref bref) ctx with ⟨rs, ds⟩
    rw [hres] at h
    cases rs with
    | none => simp [hres]
    | some s => exact absurd h (by simp)
  · intro doc ctx child required jsonpath isRequired gn gs gas gds bn bref rest h hchild
    rw [assertPropsLoop]
    simp only [resolveSchema, hchild, hassert doc ctx child required jsonpath isRequired
      bn bref rest h]
    simp

/-- C2 amended, instantiated: with `{a: → missing, b: string}` the assert
loop run on the declaration order keeps nothing but the diagnostic, the
body loop aborts the object, and with the declaration order reversed the
earlier sibling `b` keeps its assertion. -/
theorem c2_amended_witness :
    assertPropsLoop c2Doc ctx0 (fun s p r => genAssert 4 c2Doc s p r ctx0) [] "$" true
        [("a", .ref "#/components/schemas/Missing"), ("b", .item strSchema)] =
      some ([], [.missingSchemaReference ctx0 "#/components/schemas/Missing"]) ∧
    bodyPropsLoop c2Doc ctx0 (fun s n p => genBody 4 c2Doc s n ctx0 p) "$"
        [("a", .ref "#/components/schemas/Missing"), ("b", .item strSchema)] =
      some (none, [.missingSchemaReference ctx0 "#/components/schemas/Missing"]) ∧
    assertPropsLoop c2Doc ctx0 (fun s p r => genAssert 4 c2Doc s p r ctx0) [] "$" true
        [("b", .item strSchema), ("a", .ref "#/components/schemas/Missing")] =
      some (["#jsonpath \"$.b\" isString"],
            [.missingSchemaReference ctx0 "#/components/schemas/Missing"]) :=
  ⟨c2_amended.1 c2Doc ctx0 _ [] "$" true "a" _ _ rfl,
   c2_amended.2.1 c2Doc ctx0 _ "$" "a" _ _ rfl,
   c2_amended.2.2 c2Doc ctx0 (fun s p r => genAssert 4 c2Doc s p r ctx0) [] "$" true
     "b" strSchema ["#jsonpath \"$.b\" isString"] [] "a" "#/components/schemas/Missing"
     [] rfl (by decide)⟩

/-- C3 as stated is refuted: a malformed parameter reference is not
silently skipped, it appends a `MalformedParameterReference` diagnostic. -/
theorem c3_counterexample :
    generate 1 c3MalformedDoc =
      some ⟨[], [.malformedParameterReference "op" "/p" "bad"]⟩ := by
  decide

/-- C3 amended: for every document, context and parameter reference, only
a reference that resolves to a further reference, or a parameter that is
neither query nor header, is skipped silently; a malformed reference
appends a `MalformedParameterReference` diagnostic, a well-formed reference
with no components section appends a `MissingComponents` diagnostic, and a
reference to a missing component appends a `MissingParameterReference`
diagnostic (the parameter is skipped in every case) — with end-to-end runs
of each case. -/
theorem c3_amended :
    (∀ (doc : OpenAPIDoc) (ctx : DiagnosticContext) (r : String),
        refName "#/components/parameters/" r = none →
        paramStep doc ctx (.ref r) =
          ([], [], [.malformedParameterReference ctx.operation ctx.path r])) ∧
    (∀ (doc : OpenAPIDoc) (ctx : DiagnosticContext) (r name : String),
        refName "#/components/parameters/" r = some name →
        doc.components = none →
        paramStep doc ctx (.ref r) = ([], [], [.missingComponents])) ∧
    (∀ (doc : OpenAPIDoc) (ctx : DiagnosticContext) (r name : String)
        (comps : Components),
        refName "#/components/parameters/" r = some name →
        doc.components = some comps →
        List.lookup name comps.parameters = none →
        paramStep doc ctx (.ref r) = ([], [], [.missingParameterReference ctx r])) ∧
    (∀ (doc : OpenAPIDoc) (ctx : DiagnosticContext) (r name : String)
        (comps : Components) (r2 : String),
        refName "#/components/parameters/" r = some name →
        doc.components = some comps →
        List.lookup name comps.parameters = some (.ref r2) →
        paramStep doc ctx (.ref r) = ([], [], [])) ∧
    (∀ (doc : OpenAPIDoc) (ctx : DiagnosticContext) (r name : String)
        (comps : Components) (p : Param),
        refName "#/components/parameters/" r = some name →
        doc.components = some comps →
        List.lookup name comps.parameters = some (.item p) →
        (∀ n, p ≠ .query n) → (∀ n, p ≠ .header n) →
        paramStep doc ctx (.ref r) = ([], [], [])) ∧
    (∀ (doc : OpenAPIDoc) (ctx : DiagnosticContext) (p : Param),
        (∀ n, p ≠ .query n) → (∀ n, p ≠ .header n) →
        paramStep doc ctx (.item p) = ([], [], [])) ∧
    (∀ (fuel : Nat) (r : String),
        generate (fuel + 1) (c3ChainDoc r) = some ⟨[c3Output], []⟩) ∧
    (∀ fuel : Nat, generate (fuel + 1) c3PathDoc = some ⟨[c3Output], []⟩) ∧
    generate 1 c3NoCompsDoc = some ⟨[], [.missingComponents]⟩ ∧
    generate 1 c3MissingDoc =
      some ⟨[], [.missingParameterReference ctx0 "#/components/parameters/Q"]⟩ ∧
    generate 1 c3MalformedDoc =
      some ⟨[], [.malformedParameterReference "op" "/p" "bad"]⟩ := by
  refine ⟨?_, ?_, ?_, ?_, ?_, ?_, fun fuel r => rfl, fun fuel => rfl,
    by decide, by decide, by decide⟩
  · intro doc ctx r h
    simp only [paramStep, h]
  · intro doc ctx r name h1 h2
    simp only [paramStep, h1, h2]
  · intro doc ctx r name comps h1 h2 h3
    simp only [paramStep, h1, h2, h3]
  · intro doc ctx r name comps r2 h1 h2 h3
    simp only [paramStep, h1, h2, h3, ReferenceOr.asItem]
  · intro doc ctx r name comps p h1 h2 h3 hq hh
    cases p with
    | query n => exact absurd rfl (hq n)
    | header n => exact absurd rfl (hh n)
    | pathKind n => simp only [paramStep, h1, h2, h3, ReferenceOr.asItem]
    | cookie n => simp only [paramStep, h1, h2, h3, ReferenceOr.asItem]
  · intro doc ctx p hq hh
    cases p with
    | query n => exact absurd rfl (hq n)
    | header n => exact absurd rfl (hh n)
    | pathKind n => simp only [paramStep]
    | cookie n => simp only [paramStep]

/-- Witness for the C3 amendment: each diagnostic and each silent-skip case
exercised at a concrete document, reference and parameter. -/
theorem c3_amended_witness :
    paramStep emptyDoc ctx0 (.ref "bad") =
      ([], [], [.malformedParameterReference "op" "/p" "bad"]) ∧
    paramStep c3NoCompsDoc ctx0 (.ref "#/components/parameters/Q") =
      ([], [], [.missingComponents]) ∧
    paramStep c3MissingDoc ctx0 (.ref "#/components/parameters/Q") =
      ([], [], [.missingParameterReference ctx0 "#/components/parameters/Q"]) ∧
    paramStep (c3ChainDoc "x") ctx0 (.ref "#/components/parameters/P") = ([], [], []) ∧
    paramStep c3PathDoc ctx0 (.ref "#/components/parameters/P") = ([], [], []) ∧
    paramStep emptyDoc ctx0 (.item (.cookie "c")) = ([], [], []) :=
  ⟨c3_amended.1 emptyDoc ctx0 "bad" rfl,
   c3_amended.2.1 c3NoCompsDoc ctx0 "#/components/parameters/Q" "Q" rfl rfl,
   c3_amended.2.2.1 c3MissingDoc ctx0 "#/components/parameters/Q" "Q" ⟨[], [], [], []⟩
     rfl rfl rfl,
   c3_amended.2.2.2.1 (c3ChainDoc "x") ctx0 "#/components/parameters/P" "P"
     ⟨[], [("P", .ref "x")], [], []⟩ "x" rfl rfl rfl,
   c3_amended.2.2.2.2.1 c3PathDoc ctx0 "#/components/parameters/P" "P"
     ⟨[], [("P", .item (.pathKind "x"))], [], []⟩ (.pathKind "x") rfl rfl rfl
     (fun _ h => Param.noConfusion h) (fun _ h => Param.noConfusion h),
   c3_amended.2.2.2.2.2.1 emptyDoc ctx0 (.cookie "c")
     (fun _ h => Param.noConfusion h) (fun _ h => Param.noConfusion h)⟩

/-- C4 as stated is refuted: `xx#/components/schemas/Foo` does not start
with `#/components/schemas/`, yet `resolve_schema` resolves it to the
`Foo` component with no diagnostic instead of rejecting it as malformed. -/
theorem c4_counterexample :
    resolveSchema c4Doc (.ref "xx#/components/schemas/Foo") ctx0 = (some strSchema, []) ∧
    strStartsWith "xx#/components/schemas/Foo" "#/components/schemas/" = false := by
  constructor
  · rfl
  · decide

/-- C4 amended: `resolve_schema` emits the malformed-reference diagnostic
and returns none exactly when `#/components/schemas/` occurs nowhere in the
reference string (an occurrence at any position, not only position 0, is
accepted and the text after it is used as the component name). -/
theorem c4_amended (doc : OpenAPIDoc) (ctx : DiagnosticContext) (r : String) :
    resolveSchema doc (.ref r) ctx = (none, [.malformedSchemaReference ctx r]) ↔
      ¬ "#/components/schemas/".data <:+: r.data := by
  rw [← refName_eq_none_iff]
  unfold resolveSchema
  cases h : refName "#/components/schemas/" r with
  | none => simp [h]
  | some name =>
    simp only [h]
    cases doc.components with
    | none => simp
    | some comps =>
      cases hl : List.lookup name comps.schemas with
      | none => simp [hl]
      | some found =>
        cases found with
        | item s => simp [hl, ReferenceOr.asItem]
        | ref r2 => simp [hl, ReferenceOr.asItem]

/-- C7: `allOf` of two object schemas synthesizes one flattened object:
for every pair of two-property members over arbitrary interference-free
property names and every combination of primitive property types, disjoint
property sets give a key set that is the union of both members' keys, and
on an overlapping key the later member's value overwrites the earlier
one's (left-to-right, last wins). -/
theorem c7_allof_flatten_merge :
    (∀ (fuel : Nat) (na nb nc nd : String) (t1 t2 t3 t4 : PrimKind),
        goodC7Name na → goodC7Name nb → goodC7Name nc → goodC7Name nd →
        na ≠ nc → na ≠ nd → nb ≠ nc → nb ≠ nd →
        genBody (fuel + 3) emptyDoc (c7DisjointGen na nb nc nd t1 t2 t3 t4) none ctx0 "$" =
          some (some (jsonToString (.jobj (c7MergedDisjointGen na nb nc nd t1 t2 t3 t4))), [])) ∧
    (∀ (fuel : Nat) (na nb ns : String) (t1 t2 t3 t4 : PrimKind),
        goodC7Name na → goodC7Name nb → goodC7Name ns →
        na ≠ nb → na ≠ ns → nb ≠ ns →
        genBody (fuel + 3) emptyDoc (c7OverlapGen na ns nb t1 t2 t3 t4) none ctx0 "$" =
          some (some (jsonToString (.jobj (c7MergedOverlapGen na nb ns t1 t3 t4))), [])) ∧
    (∀ (na nb nc nd : String) (t1 t2 t3 t4 : PrimKind),
        (c7MergedDisjointGen na nb nc nd t1 t2 t3 t4).map Prod.fst = [na, nb, nc, nd]) ∧
    (∀ (na nb ns : String) (t1 t3 t4 : PrimKind),
        (c7MergedOverlapGen na nb ns t1 t3 t4).map Prod.fst = [na, nb, ns]) ∧
    (∀ (na nb ns : String) (t1 t3 t4 : PrimKind), ns ≠ na → ns ≠ nb →
        List.lookup ns (c7MergedOverlapGen na nb ns t1 t3 t4) = some (primJson t4)) :=
  ⟨fun fuel na nb nc nd t1 t2 t3 t4 ga gb gc gd hac had hbc hbd =>
     c7_disjoint_general fuel na nb nc nd t1 t2 t3 t4 ga gb gc gd hac had hbc hbd,
   fun fuel na nb ns t1 t2 t3 t4 ga gb gs hab has hbs =>
     c7_overlap_general fuel na nb ns t1 t2 t3 t4 ga gb gs hab has hbs,
   fun _ _ _ _ _ _ _ _ => rfl,
   fun _ _ _ _ _ _ => rfl,
   by
     intro na nb ns t1 t3 t4 hna hnb
     simp [c7MergedOverlapGen, List.lookup, beq_eq_false_iff_ne.mpr hna,
       beq_eq_false_iff_ne.mpr hnb]⟩

/-- Witness for C7 at concrete names and types. -/
theorem c7_allof_flatten_merge_witness :
    genBody (0 + 3) emptyDoc (c7DisjointGen "a" "b" "c" "d" .pBool .pStr .pInt .pNum)
        none ctx0 "$" =
      some (some (jsonToString
          (.jobj (c7MergedDisjointGen "a" "b" "c" "d" .pBool .pStr .pInt .pNum))), []) ∧
    genBody (0 + 3) emptyDoc (c7OverlapGen "a" "c" "b" .pInt .pStr .pNum .pBool)
        none ctx0 "$" =
      some (some (jsonToString (.jobj (c7MergedOverlapGen "a" "b" "c" .pInt .pNum .pBool))), []) ∧
    List.lookup "c" (c7MergedOverlapGen "a" "b" "c" .pInt .pNum .pBool) =
      some (primJson .pBool) :=
  ⟨c7_allof_flatten_merge.1 0 "a" "b" "c" "d" .pBool .pStr .pInt .pNum
     (by decide) (by decide) (by decide) (by decide)
     (by decide) (by decide) (by decide) (by decide),
   c7_allof_flatten_merge.2.1 0 "a" "b" "c" .pInt .pStr .pNum .pBool
     (by decide) (by decide) (by decide) (by decide) (by decide) (by decide),
   c7_allof_flatten_merge.2.2.2.2 "a" "b" "c" .pInt .pNum .pBool
     (by decide) (by decide)⟩

/-- C8: every output record's assertion list is duplicate-free, and the
de-duplication is order-preserving set semantics keeping first occurrences:
`uniqueFirst` keeps a prefix block intact and drops from the suffix exactly
what already occurred, is a sublist of its input (order preserved) and
changes membership not at all. -/
theorem c8_no_duplicate_asserts :
    (∀ (fuel : Nat) (doc : OpenAPIDoc) (res : GenerateResult),
        generate fuel doc = some res → ∀ o ∈ res.outputs, o.asserts.Nodup) ∧
    (∀ l₁ l₂ : List String,
        uniqueFirst (l₁ ++ l₂) =
          uniqueFirst l₁ ++ uniqueFirst (l₂.filter fun b => decide (b ∉ l₁))) ∧
    (∀ l : List String, List.Sublist (uniqueFirst l) l) ∧
    (∀ (l : List String) (a : String), a ∈ uniqueFirst l ↔ a ∈ l) := by
  refine ⟨?_, uniqueFirst_append, uniqueFirst_sublist, mem_uniqueFirst⟩
  intro fuel doc res h o ho
  rw [generate] at h
  cases hgo : generateGo fuel doc doc.operations with
  | none =>
    rw [hgo] at h
    exact Option.noConfusion h
  | some gv =>
    obtain ⟨outs, ds⟩ := gv
    rw [hgo] at h
    simp only [Option.map_some', Option.some.injEq] at h
    subst h
    exact generateGo_nodup fuel doc doc.operations outs ds hgo o ho

theorem c8_no_duplicate_asserts_witness :
    (["jsonpath \"$\" isCollection", "jsonpath \"$.x\" isInteger"] : List String).Nodup ∧
    uniqueFirst (["jsonpath \"$\" isCollection"] ++
        ["jsonpath \"$.x\" isInteger", "jsonpath \"$\" isCollection"]) =
      ["jsonpath \"$\" isCollection", "jsonpath \"$.x\" isInteger"] := by
  constructor
  · exact c8_no_duplicate_asserts.1 4 c8Doc ⟨[c8Output], []⟩ (by decide) c8Output (by decide)
  · rw [c8_no_duplicate_asserts.2.1]
    decide

/-- C9: the JSON media type is selected by prefix: `findJsonMediaType`
returns none exactly when no content key starts with `application/json`,
and picks the first key that does; both the response path and the
request-body path then behave exactly as if the selected media type were
the only entry `("application/json", mt)`, and `generate` emits the
missing-media-type diagnostic exactly in the none case. -/
theorem c9_media_type_prefix_selection :
    (∀ content : List (String × MediaType),
        findJsonMediaType content = none ↔
          ∀ p ∈ content, strStartsWith p.1 "application/json" = false) ∧
    (∀ (c₁ c₂ : List (String × MediaType)) (k : String) (mt : MediaType),
        (∀ p ∈ c₁, strStartsWith p.1 "application/json" = false) →
        strStartsWith k "application/json" = true →
        findJsonMediaType (c₁ ++ (k, mt) :: c₂) = some mt) ∧
    (∀ (fuel : Nat) (doc : OpenAPIDoc) (ctx : DiagnosticContext)
        (opName path method : String) (hps qps : List String) (rbp : Option String)
        (code : Nat) (content : List (String × MediaType)) (mt : MediaType),
        findJsonMediaType content = some mt →
        processResponse fuel doc ctx opName path method hps qps rbp (.code code)
            (.item ⟨content⟩) =
          processResponse fuel doc ctx opName path method hps qps rbp (.code code)
            (.item ⟨[("application/json", mt)]⟩)) ∧
    (∀ (fuel : Nat) (content : List (String × MediaType)),
        findJsonMediaType content = none →
        generate fuel (mkRespDoc content) =
          some ⟨[], [.missingApplicationJsonResponseBodyMediaType ctx0]⟩) ∧
    (∀ (fuel : Nat) (doc : OpenAPIDoc) (ctx : DiagnosticContext)
        (content : List (String × MediaType)) (mt : MediaType),
        findJsonMediaType content = some mt →
        processRequestBody fuel doc ctx (some (.item ⟨content⟩)) =
          processRequestBody fuel doc ctx (some (.item ⟨[("application/json", mt)]⟩))) ∧
    (∀ (fuel : Nat) (content : List (String × MediaType)),
        findJsonMediaType content = none →
        generate fuel (mkReqDoc content) =
          some ⟨[], [.missingApplicationJsonRequestBodyMediaType ctx0]⟩) := by
  have hcanon : ∀ mt : MediaType,
      findJsonMediaType [("application/json", mt)] = some mt := by
    intro mt
    simp [findJsonMediaType, List.find?,
      show strStartsWith "application/json" "application/json" = true from by decide]
  refine ⟨?_, ?_, ?_, ?_, ?_, ?_⟩
  · intro content
    simp [findJsonMediaType, List.find?_eq_none]
  · intro c₁ c₂ k mt h1 h2
    induction c₁ with
    | nil => simp [findJsonMediaType, List.find?, h2]
    | cons hd tl ih =>
      have hhd : strStartsWith hd.1 "application/json" = false :=
        h1 hd (List.mem_cons_self _ _)
      have ih2 := ih fun p hp => h1 p (List.mem_cons_of_mem _ hp)
      simp only [findJsonMediaType] at ih2 ⊢
      rw [List.cons_append, List.find?]
      simp only [hhd]
      exact ih2
  · intro fuel doc ctx opName path method hps qps rbp code content mt h
    simp only [processResponse, resolveResponse, h, hcanon]
  · intro fuel content h
    simp only [generate, mkRespDoc, generateGo, processOperation, processParams,
      processRequestBody, processResponses, processResponse, resolveResponse, h,
      Option.getD_some, Option.map_some', List.append_nil, List.nil_append, ctx0]
  · intro fuel doc ctx content mt h
    simp only [processRequestBody, resolveRequestBody, h, hcanon]
  · intro fuel content h
    simp only [generate, mkReqDoc, generateGo, processOperation, processParams,
      processRequestBody, processResponses, processResponse, resolveRequestBody, h,
      Option.getD_some, Option.map_some', List.append_nil, List.nil_append, ctx0]

theorem c9_media_type_prefix_selection_witness :
    findJsonMediaType c9Content = some mtStr ∧
    processResponse 1 emptyDoc ctx0 "op" "/p" "get" [] [] none (.code 200)
        (.item ⟨c9Content⟩) =
      processResponse 1 emptyDoc ctx0 "op" "/p" "get" [] [] none (.code 200)
        (.item ⟨[("application/json", mtStr)]⟩) ∧
    generate 1 (mkRespDoc [("text/plain", mtNone)]) =
      some ⟨[], [.missingApplicationJsonResponseBodyMediaType ctx0]⟩ ∧
    generate 1 (mkReqDoc [("text/plain", mtNone)]) =
      some ⟨[], [.missingApplicationJsonRequestBodyMediaType ctx0]⟩ :=
  ⟨c9_media_type_prefix_selection.2.1 [("text/plain", mtNone)] []
     "application/json; charset=utf-8" mtStr (by decide) (by decide),
   c9_media_type_prefix_selection.2.2.1 1 emptyDoc ctx0 "op" "/p" "get" [] [] none 200
     c9Content mtStr rfl,
   c9_media_type_prefix_selection.2.2.2.1 1 [("text/plain", mtNone)]
     ((c9_media_type_prefix_selection.1 [("text/plain", mtNone)]).mpr (by decide)),
   c9_media_type_prefix_selection.2.2.2.2.2 1 [("text/plain", mtNone)]
     ((c9_media_type_prefix_selection.1 [("text/plain", mtNone)]).mpr (by decide))⟩

